import Mathlib

/-!
Shallow embedding of the library-backend repository (book catalog CRUD,
physical-copy tracking, circulation issue/return flow with fine computation,
CSV bulk import, audit-log retrieval).

Modelling conventions:
* The MongoDB document store is an explicit `Db` state; each controller is a
  pure function `… → Db → Resp × Db`.
* Dates are integer day numbers (a value of `today` denotes the midnight of
  that calendar day).  The JS fine computation takes the difference of two
  local midnights and divides by 86 400 000 ms with `Math.ceil`; for whole-day
  midnight differences this is exactly integer day subtraction, which is how
  it is rendered here.
* Every `await`ed database call inside a `try` block can throw.  A parameter
  `failAt : Option Nat` injects an exception at the call site with the given
  static index (the call that throws has no effect on the state); reaching a
  site `k` with `failAt = some k` runs the surrounding `catch` handler.
  JS `TypeError`s from dereferencing `null` documents are modelled explicitly
  at the places they can occur.
* Mongoose `findOne` / `findOneAndUpdate` / `findByIdAndUpdate` read or write
  the first matching document: `List.find?` / `updateFirst`.
-/

/-- A document-store state shared by all controllers. -/
structure SystemConfig where
  maxBooksPerStudent : Nat
  issueDaysLimit : Nat
  finePerDay : Nat
deriving Repr, DecidableEq

/-- Modelled from the spec: the `SystemConfig` Mongoose model is not under
`src/`; `SystemConfig.create({})` fills it with schema defaults.  The spec
only calls these "configured" values, so the defaults are left as an
arbitrary but fixed record. -/
def defaultConfig : SystemConfig :=
  { maxBooksPerStudent := 3, issueDaysLimit := 14, finePerDay := 1 }

structure User where
  id : Nat
  name : String
  registerNumber : String
  isActive : Bool
deriving Repr, DecidableEq

structure Book where
  id : Nat
  title : String
  author : String
  isbn : String
  department : String
  totalCopies : Int
  availableCopies : Int
deriving Repr, DecidableEq

structure BookCopy where
  id : Nat
  book : Nat
  copyNumber : String
  status : String
deriving Repr, DecidableEq

structure Transaction where
  student : Nat
  book : Nat
  copyId : String
  dueDate : Int
  returnDate : Option Int
  status : String
  fine : Nat
  isFinePaid : Bool
deriving Repr, DecidableEq

structure AuditLog where
  actor : Nat
  actorName : String
  action : String
  details : String
  ip : String
  createdAt : Nat
deriving Repr, DecidableEq

structure Db where
  config : Option SystemConfig
  users : List User
  books : List Book
  copies : List BookCopy
  txns : List Transaction
  deptCodes : List String
  audits : List AuditLog
  nextBookId : Nat
  nextCopyId : Nat
deriving Repr, DecidableEq

/-- An HTTP response: status code plus the `message` field of the JSON body
(every body produced by the modelled handlers carries one). -/
structure Resp where
  code : Nat
  message : String
deriving Repr, DecidableEq

/-- `findOneAndUpdate` / `save`: rewrite the first element satisfying `p`. -/
def updateFirst (p : α → Bool) (f : α → α) : List α → List α
  | [] => []
  | a :: l => if p a then f a :: l else a :: updateFirst p f l

/-- `deleteOne` / `findByIdAndDelete`: remove the first element satisfying `p`. -/
def deleteFirst (p : α → Bool) : List α → List α
  | [] => []
  | a :: l => if p a then l else a :: deleteFirst p l

/-- Modelled from the spec: the `BookCopy` Mongoose model is not under `src/`;
per the glossary a copy is "tracked by status (Available/Issued/Lost)", i.e.
the schema restricts `status` to these three values and `save` rejects any
other string with a validation error. -/
def validStatus (s : String) : Bool :=
  s = "Available" || s = "Issued" || s = "Lost"

/-- `logAudit` from auditController: looks the actor up, appends a log entry
(falling back to "Unknown" for the name); its own errors are swallowed. -/
def logAudit (actorId : Nat) (action details : String) (now : Nat) (db : Db) : Db :=
  let actorName :=
    match db.users.find? (fun u => u.id = actorId) with
    | some u => u.name
    | none => "Unknown"
  { db with audits := db.audits ++
      [{ actor := actorId, actorName := actorName, action := action, details := details,
         ip := "0.0.0.0", createdAt := now }] }

/-- The catch handler of `issueBook`: when the request carried an explicit
`copyId`, best-effort rollback sets that copy's status to `Available`;
always answers 500 with the error message. -/
def issueCatch (copyId : Option String) (msg : String) (db : Db) : Resp × Db :=
  match copyId with
  | some cid =>
      let copies := updateFirst (fun c => c.copyNumber = cid)
        (fun c => { c with status := "Available" }) db.copies
      (⟨500, msg⟩, { db with copies := copies })
  | none => (⟨500, msg⟩, db)

/-- Tail of `issueBook` after a copy has been claimed: decrement the book's
`availableCopies`, create the `Issued` transaction, log, respond 201.
Throw sites 7 (`Book.findByIdAndUpdate`) and 8 (`Transaction.create`). -/
def issueFinish (failAt : Option Nat) (today : Int) (reqUser : Option Nat)
    (student : User) (cfg : SystemConfig) (targetCopy : BookCopy)
    (copyId : Option String) (db : Db) : Resp × Db :=
  if failAt = some 7 then issueCatch copyId "db error" db else
  let books := updateFirst (fun b => b.id = targetCopy.book)
    (fun b => { b with availableCopies := b.availableCopies - 1 }) db.books
  let db := { db with books := books }
  let dueDate : Int := today + cfg.issueDaysLimit
  if failAt = some 8 then issueCatch copyId "db error" db else
  let txn : Transaction :=
    { student := student.id, book := targetCopy.book, copyId := targetCopy.copyNumber,
      dueDate := dueDate, returnDate := none, status := "Issued", fine := 0,
      isFinePaid := false }
  let db := { db with txns := db.txns ++ [txn] }
  let db :=
    match reqUser with
    | some uid =>
        logAudit uid "ISSUE_BOOK"
          ("Issued " ++ targetCopy.copyNumber ++ " to " ++ student.registerNumber)
          today.toNat db
    | none => db
  (⟨201, "Book Issued Successfully"⟩, db)

/-- Body of `issueBook` once the config is resolved.  Throw sites:
2 `User.findById`, 3 `Transaction.countDocuments`, 4/6 the two
`BookCopy.findOneAndUpdate`s, 5 `Book.findOne`. -/
def issueBookAux (failAt : Option Nat) (today : Int) (reqUser : Option Nat)
    (studentId : Nat) (isbn : String) (copyId : Option String)
    (cfg : SystemConfig) (db : Db) : Resp × Db :=
  if failAt = some 2 then issueCatch copyId "db error" db else
  match db.users.find? (fun u => u.id = studentId) with
  | none => (⟨404, "Student not found"⟩, db)
  | some student =>
    if !student.isActive then (⟨400, "Student account is blocked"⟩, db) else
    if failAt = some 3 then issueCatch copyId "db error" db else
    let activeCount :=
      (db.txns.filter (fun t => t.student = student.id && t.status = "Issued")).length
    if cfg.maxBooksPerStudent ≤ activeCount then
      (⟨400, "Limit reached"⟩, db)
    else
      match copyId with
      | some cid =>
        if failAt = some 4 then issueCatch copyId "db error" db else
        (match db.copies.find? (fun c => c.copyNumber = cid && c.status = "Available") with
         | none => (⟨400, "Copy is not available (Already Issued or Lost)"⟩, db)
         | some c0 =>
           let copies := updateFirst (fun c => c.copyNumber = cid && c.status = "Available")
             (fun c => { c with status := "Issued" }) db.copies
           let db := { db with copies := copies }
           issueFinish failAt today reqUser student cfg { c0 with status := "Issued" } copyId db)
      | none =>
        if failAt = some 5 then issueCatch copyId "db error" db else
        match db.books.find? (fun b => b.isbn = isbn) with
        | none => (⟨404, "Book ISBN not found"⟩, db)
        | some book =>
          if failAt = some 6 then issueCatch copyId "db error" db else
          match db.copies.find? (fun c => c.book = book.id && c.status = "Available") with
          | none => (⟨400, "No copies currently available"⟩, db)
          | some c0 =>
            let copies := updateFirst (fun c => c.book = book.id && c.status = "Available")
              (fun c => { c with status := "Issued" }) db.copies
            let db := { db with copies := copies }
            issueFinish failAt today reqUser student cfg { c0 with status := "Issued" } copyId db

/-- `issueBook` (POST /api/circulation/issue).  Throw sites 0
(`SystemConfig.findOne`) and 1 (`SystemConfig.create`). -/
def issueBook (failAt : Option Nat) (today : Int) (reqUser : Option Nat)
    (studentId : Nat) (isbn : String) (copyId : Option String) (db : Db) : Resp × Db :=
  if failAt = some 0 then issueCatch copyId "db error" db else
  match db.config with
  | some cfg => issueBookAux failAt today reqUser studentId isbn copyId cfg db
  | none =>
    if failAt = some 1 then issueCatch copyId "db error" db else
    issueBookAux failAt today reqUser studentId isbn copyId defaultConfig
      { db with config := some defaultConfig }

/-- The fine computed by `returnBook`: days elapsed between the midnight of
the due date and the midnight of the return day, times the per-day fine;
0 when the return midnight is not strictly after the due midnight. -/
def computeFine (today due : Int) (finePerDay : Nat) : Nat :=
  if due < today then (today - due).toNat * finePerDay else 0

/-- Body of `returnBook` once the config is resolved.  Throw sites:
2 `Transaction.findOne`, 3 `BookCopy.findOne` (stale check), 4
`transaction.save`, 5 `BookCopy.findOneAndUpdate`, 6 `BookCopy.findOne`
(re-fetch), 7 `Book.findByIdAndUpdate`.  Dereferencing a missing copy
(`copy.book`) or a dangling populated student (`transaction.student.name`)
raises a `TypeError` caught by the same handler. -/
def returnBookAux (failAt : Option Nat) (today : Int) (reqUser : Option Nat)
    (copyId : String) (cfg : SystemConfig) (db : Db) : Resp × Db :=
  if failAt = some 2 then (⟨500, "db error"⟩, db) else
  match db.txns.find? (fun t => t.copyId = copyId && t.status = "Issued") with
  | none =>
    if failAt = some 3 then (⟨500, "db error"⟩, db) else
    (match db.copies.find? (fun c => c.copyNumber = copyId) with
     | some checkCopy =>
       if checkCopy.status = "Available" then
         (⟨400, "Book is already marked Returned."⟩, db)
       else (⟨404, "No active Issue record found for this copy."⟩, db)
     | none => (⟨404, "No active Issue record found for this copy."⟩, db))
  | some txn =>
    let fine := computeFine today txn.dueDate cfg.finePerDay
    if failAt = some 4 then (⟨500, "db error"⟩, db) else
    let txns := updateFirst (fun t => t.copyId = copyId && t.status = "Issued")
      (fun t => { t with returnDate := some today, status := "Returned",
                         fine := fine, isFinePaid := fine == 0 }) db.txns
    let db := { db with txns := txns }
    if failAt = some 5 then (⟨500, "db error"⟩, db) else
    let copies := updateFirst (fun c => c.copyNumber = copyId)
      (fun c => { c with status := "Available" }) db.copies
    let db := { db with copies := copies }
    if failAt = some 6 then (⟨500, "db error"⟩, db) else
    match db.copies.find? (fun c => c.copyNumber = copyId) with
    | none => (⟨500, "TypeError"⟩, db)
    | some copy =>
      if failAt = some 7 then (⟨500, "db error"⟩, db) else
      let books := updateFirst (fun b => b.id = copy.book)
        (fun b => { b with availableCopies := b.availableCopies + 1 }) db.books
      let db := { db with books := books }
      let db :=
        match reqUser with
        | some uid =>
            logAudit uid "RETURN_BOOK"
              ("Returned " ++ copyId ++ ". Fine: " ++ toString fine) today.toNat db
        | none => db
      match db.users.find? (fun u => u.id = txn.student) with
      | none => (⟨500, "TypeError"⟩, db)
      | some _student => (⟨200, "Book Returned Successfully"⟩, db)

/-- `returnBook` (POST /api/circulation/return).  Throw sites 0
(`SystemConfig.findOne`) and 1 (`SystemConfig.create`). -/
def returnBook (failAt : Option Nat) (today : Int) (reqUser : Option Nat)
    (copyId : String) (db : Db) : Resp × Db :=
  if failAt = some 0 then (⟨500, "db error"⟩, db) else
  match db.config with
  | some cfg => returnBookAux failAt today reqUser copyId cfg db
  | none =>
    if failAt = some 1 then (⟨500, "db error"⟩, db) else
    returnBookAux failAt today reqUser copyId defaultConfig
      { db with config := some defaultConfig }

example :
    computeFine 12 10 5 = 10 ∧ computeFine 10 10 5 = 0 ∧ computeFine 9 10 5 = 0 := by
  decide

/-- `createBook` (POST /api/books): validate the department code, reject a
duplicate ISBN, create the book with `totalCopies = availableCopies =
quantity` and generate `quantity` copies numbered `isbn-1 … isbn-quantity`,
all `Available`. -/
def createBook (title author isbn department : String) (quantity : Nat)
    (db : Db) : Resp × Db :=
  if (db.deptCodes.find? (fun d => d = department)).isNone then
    (⟨400, "Invalid Department Code: " ++ department⟩, db)
  else
    match db.books.find? (fun b => b.isbn = isbn) with
    | some _ => (⟨400, "Book with this ISBN already exists"⟩, db)
    | none =>
      let newBook : Book :=
        { id := db.nextBookId, title := title, author := author, isbn := isbn,
          department := department, totalCopies := (quantity : Int),
          availableCopies := (quantity : Int) }
      let newCopies := (List.range quantity).map (fun i =>
        ({ id := db.nextCopyId + i, book := db.nextBookId,
           copyNumber := isbn ++ "-" ++ toString (i + 1),
           status := "Available" } : BookCopy))
      (⟨201, "created"⟩,
       { db with books := db.books ++ [newBook], copies := db.copies ++ newCopies,
                 nextBookId := db.nextBookId + 1,
                 nextCopyId := db.nextCopyId + quantity })

/-- `addCopies` (copy management): append `count` fresh copies numbered from
`totalCopies + 1` and add `count` to both counters of the book. -/
def addCopies (bookId : Nat) (count : Nat) (db : Db) : Resp × Db :=
  match db.books.find? (fun b => b.id = bookId) with
  | none => (⟨404, "Book not found"⟩, db)
  | some book =>
    let startNum : Int := book.totalCopies + 1
    let newCopies := (List.range count).map (fun (i : Nat) =>
      ({ id := db.nextCopyId + i, book := book.id,
         copyNumber := book.isbn ++ "-" ++ toString (startNum + Int.ofNat i),
         status := "Available" } : BookCopy))
    let books := updateFirst (fun b => b.id = bookId)
      (fun b => { b with totalCopies := b.totalCopies + count,
                         availableCopies := b.availableCopies + count }) db.books
    (⟨200, toString count ++ " Copies Added"⟩,
     { db with copies := db.copies ++ newCopies, books := books,
               nextCopyId := db.nextCopyId + count })

/-- `deleteCopy`: remove the copy document; when its book still exists,
decrement `totalCopies` and, if the copy was `Available`, `availableCopies`. -/
def deleteCopy (id : Nat) (db : Db) : Resp × Db :=
  match db.copies.find? (fun c => c.id = id) with
  | none => (⟨404, "Copy not found"⟩, db)
  | some copy =>
    let bookExists := (db.books.find? (fun b => b.id = copy.book)).isSome
    let copies := deleteFirst (fun c => c.id = id) db.copies
    if bookExists then
      let books := updateFirst (fun b => b.id = copy.book)
        (fun b => { b with totalCopies := b.totalCopies - 1,
                           availableCopies :=
                             if copy.status = "Available" then b.availableCopies - 1
                             else b.availableCopies }) db.books
      (⟨200, "Copy deleted"⟩, { db with copies := copies, books := books })
    else
      (⟨200, "Copy deleted"⟩, { db with copies := copies })

/-- `updateCopyStatus`: adjust `availableCopies` for a transition into or out
of `Available`, then persist the copy and the book.  A `status` outside the
schema enum makes `copy.save()` throw a validation error (nothing persisted);
a dangling `copy.book` makes the handler throw a `TypeError` — before any
write when a counter branch runs, after `copy.save()` otherwise. -/
def updateCopyStatus (id : Nat) (status : String) (db : Db) : Resp × Db :=
  match db.copies.find? (fun c => c.id = id) with
  | none => (⟨404, "Copy not found"⟩, db)
  | some copy =>
    if (db.books.find? (fun b => b.id = copy.book)).isNone then
      if copy.status = "Available" && !(status = "Available") then
        (⟨500, "TypeError"⟩, db)
      else if !(copy.status = "Available") && status = "Available" then
        (⟨500, "TypeError"⟩, db)
      else if validStatus status then
        let copies := updateFirst (fun c => c.id = id)
          (fun c => { c with status := status }) db.copies
        (⟨500, "TypeError"⟩, { db with copies := copies })
      else (⟨500, "ValidationError"⟩, db)
    else
      if validStatus status then
        let copies := updateFirst (fun c => c.id = id)
          (fun c => { c with status := status }) db.copies
        let books :=
          if copy.status = "Available" && !(status = "Available") then
            updateFirst (fun b => b.id = copy.book)
              (fun b => { b with availableCopies := b.availableCopies - 1 }) db.books
          else if !(copy.status = "Available") && status = "Available" then
            updateFirst (fun b => b.id = copy.book)
              (fun b => { b with availableCopies := b.availableCopies + 1 }) db.books
          else db.books
        (⟨200, "updated"⟩, { db with copies := copies, books := books })
      else (⟨500, "ValidationError"⟩, db)

/-- A parsed CSV row of the bulk upload.  `none` stands for an absent or
empty (JS-falsy) field after the `row.Title || row.title` key normalisation;
`quantity` is the value of `parseInt(row.Quantity || row.quantity || 1)`,
with a NaN behaving as 0 loop iterations. -/
structure CsvRow where
  title : Option String
  author : Option String
  isbn : Option String
  dept : Option String
  quantity : Nat
deriving Repr, DecidableEq

/-- The accumulator of the bulk-upload loop. -/
structure UploadState where
  db : Db
  errors : List String
  added : Nat
  updated : Nat
deriving Repr, DecidableEq

/-- Copy generation of `uploadBookCSV` for one row: numbers start at
`totalCopies + 1`; a candidate number that already exists in the store is
skipped; the inserted count is added to both counters of the book. -/
def insertRowCopies (isbn : String) (quantity : Nat) (book : Book)
    (st : UploadState) : UploadState :=
  let toInsert := (List.range quantity).filterMap (fun (i : Nat) =>
    if (st.db.copies.find? (fun c =>
          c.copyNumber = isbn ++ "-" ++ toString (book.totalCopies + 1 + Int.ofNat i))).isSome
    then none
    else some ({ id := st.db.nextCopyId + i, book := book.id,
                 copyNumber := isbn ++ "-" ++ toString (book.totalCopies + 1 + Int.ofNat i),
                 status := "Available" } : BookCopy))
  let books := updateFirst (fun b => b.id = book.id)
    (fun b => { b with totalCopies := b.totalCopies + toInsert.length,
                       availableCopies := b.availableCopies + toInsert.length })
    st.db.books
  { st with db := { st.db with copies := st.db.copies ++ toInsert,
                               books := books,
                               nextCopyId := st.db.nextCopyId + quantity } }

/-- One iteration of the `uploadBookCSV` row loop: rows missing ISBN or
title, and rows whose department code (case-insensitively) is unknown, are
skipped with an error message; otherwise an unknown ISBN creates the book
(counted in `added`) and a known ISBN is counted in `updated`, and the row's
copies are generated. -/
def processRow (validDeptCodes : List String) (st : UploadState)
    (row : CsvRow) : UploadState :=
  match row.isbn, row.title with
  | none, _ => { st with errors := st.errors ++ ["Row missing ISBN or Title"] }
  | some _, none => { st with errors := st.errors ++ ["Row missing ISBN or Title"] }
  | some isbn, some title =>
    let deptOk :=
      match row.dept with
      | none => false
      | some dept => validDeptCodes.contains dept.toUpper
    if !deptOk then
      { st with errors := st.errors ++
          ["ISBN " ++ isbn ++ ": Invalid or Missing Department. Please add Dept first."] }
    else
      match st.db.books.find? (fun b => b.isbn = isbn) with
      | some book =>
        let st := { st with updated := st.updated + 1 }
        insertRowCopies isbn row.quantity book st
      | none =>
        let newBook : Book :=
          { id := st.db.nextBookId, title := title,
            author := (row.author.getD ""), isbn := isbn,
            department := ((row.dept.getD "").toUpper),
            totalCopies := 0, availableCopies := 0 }
        let st := { st with
          db := { st.db with books := st.db.books ++ [newBook],
                             nextBookId := st.db.nextBookId + 1 },
          added := st.added + 1 }
        insertRowCopies isbn row.quantity newBook st

/-- `uploadBookCSV`: fold the row loop over the parsed rows, with the valid
department codes fetched (uppercased) once at the start. -/
def uploadBookCSV (rows : List CsvRow) (db : Db) : UploadState :=
  rows.foldl (processRow (db.deptCodes.map String.toUpper))
    { db := db, errors := [], added := 0, updated := 0 }

/-- `getAuditLogs` (GET /api/audit): all log documents sorted newest first by
`createdAt`, limited to the first 100. -/
def getAuditLogs (logs : List AuditLog) : List AuditLog :=
  (List.insertionSort (fun a b => b.createdAt ≤ a.createdAt) logs).take 100

/-! ### Generic list lemmas for the document-store primitives -/

theorem find?_decomp {α : Type} {p : α → Bool} {l : List α} {a : α}
    (h : l.find? p = some a) :
    ∃ l1 l2, l = l1 ++ a :: l2 ∧ (∀ x ∈ l1, p x = false) ∧ p a = true := by
  induction l with
  | nil => simp at h
  | cons x xs ih =>
    by_cases hx : p x
    · rw [List.find?_cons_of_pos _ hx] at h
      cases h
      exact ⟨[], xs, by simp, by simp, hx⟩
    · rw [List.find?_cons_of_neg _ hx] at h
      obtain ⟨l1, l2, rfl, h1, h2⟩ := ih h
      refine ⟨x :: l1, l2, rfl, ?_, h2⟩
      intro y hy
      rcases List.mem_cons.mp hy with rfl | hy
      · exact Bool.eq_false_iff.mpr hx
      · exact h1 y hy

theorem updateFirst_at {α : Type} (p : α → Bool) (f : α → α)
    {l1 : List α} (l2 : List α) (a : α) (h1 : ∀ x ∈ l1, p x = false)
    (ha : p a = true) :
    updateFirst p f (l1 ++ a :: l2) = l1 ++ f a :: l2 := by
  induction l1 with
  | nil => simp [updateFirst, ha]
  | cons x xs ih =>
    have hx : p x = false := h1 x (List.mem_cons_self x xs)
    simp only [List.cons_append, updateFirst, hx]
    simp only [Bool.false_eq_true, if_false, List.append_eq]
    rw [ih (fun y hy => h1 y (List.mem_cons_of_mem x hy))]

theorem deleteFirst_at {α : Type} (p : α → Bool)
    {l1 : List α} (l2 : List α) (a : α) (h1 : ∀ x ∈ l1, p x = false)
    (ha : p a = true) :
    deleteFirst p (l1 ++ a :: l2) = l1 ++ l2 := by
  induction l1 with
  | nil => simp [deleteFirst, ha]
  | cons x xs ih =>
    have hx : p x = false := h1 x (List.mem_cons_self x xs)
    simp only [List.cons_append, deleteFirst, hx]
    simp only [Bool.false_eq_true, if_false, List.append_eq]
    rw [ih (fun y hy => h1 y (List.mem_cons_of_mem x hy))]

theorem find?_at {α : Type} (p : α → Bool)
    {l1 : List α} (l2 : List α) (a : α) (h1 : ∀ x ∈ l1, p x = false)
    (ha : p a = true) :
    (l1 ++ a :: l2).find? p = some a := by
  induction l1 with
  | nil =>
    simp only [List.nil_append]
    rw [List.find?_cons_of_pos _ ha]
  | cons x xs ih =>
    have hx : p x = false := h1 x (List.mem_cons_self x xs)
    simp only [List.cons_append]
    rw [List.find?_cons_of_neg _ (by simp [hx])]
    exact ih (fun y hy => h1 y (List.mem_cons_of_mem x hy))

theorem updateFirst_of_none {α : Type} (p : α → Bool) (f : α → α)
    {l : List α} (h : ∀ x ∈ l, p x = false) :
    updateFirst p f l = l := by
  induction l with
  | nil => rfl
  | cons x xs ih =>
    have hx : p x = false := h x (List.mem_cons_self x xs)
    simp only [updateFirst, hx, Bool.false_eq_true, if_false]
    rw [ih (fun y hy => h y (List.mem_cons_of_mem x hy))]

theorem mem_updateFirst {α : Type} {p : α → Bool} {f : α → α} {l : List α} {x : α}
    (h : x ∈ updateFirst p f l) : x ∈ l ∨ ∃ a, a ∈ l ∧ x = f a := by
  induction l with
  | nil => simp [updateFirst] at h
  | cons y ys ih =>
    simp only [updateFirst] at h
    by_cases hy : p y
    · simp only [hy, if_true] at h
      rcases List.mem_cons.mp h with rfl | h
      · exact Or.inr ⟨y, List.mem_cons_self y ys, rfl⟩
      · exact Or.inl (List.mem_cons_of_mem y h)
    · simp only [hy, if_false] at h
      rcases List.mem_cons.mp h with rfl | h
      · exact Or.inl (List.mem_cons_self x ys)
      · rcases ih h with h | ⟨a, ha, rfl⟩
        · exact Or.inl (List.mem_cons_of_mem y h)
        · exact Or.inr ⟨a, List.mem_cons_of_mem y ha, rfl⟩

theorem mem_deleteFirst {α : Type} {p : α → Bool} {l : List α} {x : α}
    (h : x ∈ deleteFirst p l) : x ∈ l := by
  induction l with
  | nil => simp [deleteFirst] at h
  | cons y ys ih =>
    simp only [deleteFirst] at h
    by_cases hy : p y
    · simp only [hy, if_true] at h
      exact List.mem_cons_of_mem y h
    · simp only [hy, if_false] at h
      rcases List.mem_cons.mp h with rfl | h
      · exact List.mem_cons_self x ys
      · exact List.mem_cons_of_mem y (ih h)

/-! ### Counting copies per book, and the two store invariants -/

/-- Number of `Available` copies of book `bid` in the store. -/
def cAvail (bid : Nat) (cs : List BookCopy) : Nat :=
  (cs.filter (fun c => c.book = bid && c.status = "Available")).length

/-- Total number of copies of book `bid` in the store. -/
def cTotal (bid : Nat) (cs : List BookCopy) : Nat :=
  (cs.filter (fun c => c.book = bid)).length

/-- The counter invariant: each book's `availableCopies` / `totalCopies`
fields agree with the actual copy documents. -/
def CounterInv (db : Db) : Prop :=
  ∀ b ∈ db.books, b.availableCopies = (cAvail b.id db.copies : Int) ∧
    b.totalCopies = (cTotal b.id db.copies : Int)

instance (db : Db) : Decidable (CounterInv db) :=
  List.decidableBAll _ db.books

/-- The copy-status invariant: every copy is `Available`, `Issued` or `Lost`. -/
def StatusInv (db : Db) : Prop :=
  ∀ c ∈ db.copies, validStatus c.status = true

instance (db : Db) : Decidable (StatusInv db) :=
  List.decidableBAll _ db.copies

/-- Store well-formedness used by the counter-invariant proofs: distinct book
document ids, and id freshness relative to the id allocator (MongoDB ObjectIds
are unique). -/
def Wf (db : Db) : Prop :=
  db.books.Pairwise (fun a b => a.id ≠ b.id) ∧
  (∀ b ∈ db.books, b.id < db.nextBookId) ∧
  (∀ c ∈ db.copies, c.book < db.nextBookId)

instance (db : Db) : Decidable (Wf db) := by
  unfold Wf
  exact instDecidableAnd

theorem cAvail_append (bid : Nat) (l1 l2 : List BookCopy) :
    cAvail bid (l1 ++ l2) = cAvail bid l1 + cAvail bid l2 := by
  simp [cAvail, List.filter_append]

theorem cTotal_append (bid : Nat) (l1 l2 : List BookCopy) :
    cTotal bid (l1 ++ l2) = cTotal bid l1 + cTotal bid l2 := by
  simp [cTotal, List.filter_append]

theorem cAvail_cons (bid : Nat) (c : BookCopy) (l : List BookCopy) :
    cAvail bid (c :: l) =
      (if c.book = bid ∧ c.status = "Available" then 1 else 0) + cAvail bid l := by
  simp only [cAvail, List.filter_cons]
  split <;> split <;> simp_all <;> try omega

theorem cTotal_cons (bid : Nat) (c : BookCopy) (l : List BookCopy) :
    cTotal bid (c :: l) = (if c.book = bid then 1 else 0) + cTotal bid l := by
  simp only [cTotal, List.filter_cons]
  split <;> split <;> simp_all <;> try omega

/-- Uniform step lemma: if every book in the new list differs from a book in
the old list by per-book deltas `dA`, `dT`, and the per-book copy counts
change by the same deltas, the counter invariant carries over. -/
theorem counterInv_step {books books' : List Book} {copies copies' : List BookCopy}
    (dA dT : Nat → Int)
    (hbooks : ∀ b' ∈ books', ∃ b, b ∈ books ∧ b'.id = b.id ∧
        b'.availableCopies = b.availableCopies + dA b.id ∧
        b'.totalCopies = b.totalCopies + dT b.id)
    (hcA : ∀ bid, (cAvail bid copies' : Int) = (cAvail bid copies : Int) + dA bid)
    (hcT : ∀ bid, (cTotal bid copies' : Int) = (cTotal bid copies : Int) + dT bid)
    (hinv : ∀ b ∈ books, b.availableCopies = (cAvail b.id copies : Int) ∧
        b.totalCopies = (cTotal b.id copies : Int)) :
    ∀ b' ∈ books', b'.availableCopies = (cAvail b'.id copies' : Int) ∧
        b'.totalCopies = (cTotal b'.id copies' : Int) := by
  intro b' hb'
  obtain ⟨b, hb, hid, hA, hT⟩ := hbooks b' hb'
  obtain ⟨iA, iT⟩ := hinv b hb
  exact ⟨by rw [hA, iA, hid, hcA], by rw [hT, iT, hid, hcT]⟩

/-! ### Audit-log retrieval (C10) -/

instance : IsTotal AuditLog (fun a b => b.createdAt ≤ a.createdAt) :=
  ⟨fun a b => le_total b.createdAt a.createdAt⟩

instance : IsTrans AuditLog (fun a b => b.createdAt ≤ a.createdAt) :=
  ⟨fun _ _ _ h1 h2 => le_trans h2 h1⟩

/-- C10: audit log retrieval always returns at most 100 entries, sorted by
creation time with the newest entry first, however many records exist. -/
theorem getAuditLogs_limit_and_order (logs : List AuditLog) :
    (getAuditLogs logs).length ≤ 100 ∧
    List.Sorted (fun a b => b.createdAt ≤ a.createdAt) (getAuditLogs logs) := by
  constructor
  · simp [getAuditLogs, List.length_take]
  · exact List.Pairwise.sublist (List.take_sublist _ _)
      (List.sorted_insertionSort (fun a b : AuditLog => b.createdAt ≤ a.createdAt) logs)

/-! ### The borrow limit (C2) -/

/-- C2: a student who already holds at least `maxBooksPerStudent` transactions
with status `Issued` is rejected with a 400 response, and the store is left
completely untouched: no copy status, no book counter, no new transaction. -/
theorem issueBook_limit_rejected (today : Int) (reqUser : Option Nat)
    (studentId : Nat) (isbn : String) (copyId : Option String) (db : Db)
    (cfg : SystemConfig) (student : User)
    (hcfg : db.config = some cfg)
    (hstudent : db.users.find? (fun u => u.id = studentId) = some student)
    (hlimit : cfg.maxBooksPerStudent ≤
      (db.txns.filter (fun t => t.student = student.id && t.status = "Issued")).length) :
    (issueBook none today reqUser studentId isbn copyId db).1.code = 400 ∧
    (issueBook none today reqUser studentId isbn copyId db).2 = db := by
  simp only [issueBook, issueBookAux, hcfg, hstudent]
  by_cases h : student.isActive <;> simp [h, hlimit]

/-! ### Fine computation on return (C1) -/

/-- Projection of `returnBookAux` (no injected error): once the active
`Issued` transaction is found, the transaction list of the final state is the
original one with that record rewritten to `Returned`, carrying the computed
fine, and the copy list has the returned copy set to `Available`; later steps
never touch either list again. -/
theorem returnBookAux_found_txns_copies (today : Int) (reqUser : Option Nat)
    (copyId : String) (cfg : SystemConfig) (db : Db) (txn : Transaction)
    (htxn : db.txns.find? (fun t => t.copyId = copyId && t.status = "Issued") = some txn) :
    (returnBookAux none today reqUser copyId cfg db).2.txns =
      updateFirst (fun t => t.copyId = copyId && t.status = "Issued")
        (fun t => { t with returnDate := some today, status := "Returned",
                           fine := computeFine today txn.dueDate cfg.finePerDay,
                           isFinePaid := computeFine today txn.dueDate cfg.finePerDay == 0 })
        db.txns ∧
    (returnBookAux none today reqUser copyId cfg db).2.copies =
      updateFirst (fun c => c.copyNumber = copyId)
        (fun c => { c with status := "Available" }) db.copies := by
  simp only [returnBookAux, htxn]
  simp only [show ((none : Option Nat) = some 2) = False from by simp,
    show ((none : Option Nat) = some 4) = False from by simp,
    show ((none : Option Nat) = some 5) = False from by simp,
    show ((none : Option Nat) = some 6) = False from by simp,
    show ((none : Option Nat) = some 7) = False from by simp,
    if_false]
  split
  · exact ⟨rfl, rfl⟩
  · cases reqUser <;>
      · simp only [logAudit]
        split <;> exact ⟨rfl, rfl⟩

/-- C1: for every return of a copy with an active `Issued` transaction, the
fine recorded on that transaction equals the number of days elapsed between
the due-date midnight and the return-day midnight times the configured
per-day fine, and is 0 whenever the return day is on or before the due day. -/
theorem returnBook_records_fine (today : Int) (reqUser : Option Nat)
    (copyId : String) (db : Db) (cfg : SystemConfig) (txn : Transaction)
    (hcfg : db.config = some cfg)
    (htxn : db.txns.find? (fun t => t.copyId = copyId && t.status = "Issued") = some txn) :
    ∃ l1 l2 t', db.txns = l1 ++ txn :: l2 ∧
      (returnBook none today reqUser copyId db).2.txns = l1 ++ t' :: l2 ∧
      t'.status = "Returned" ∧ t'.returnDate = some today ∧
      t'.fine = (if txn.dueDate < today
                 then (today - txn.dueDate).toNat * cfg.finePerDay else 0) := by
  obtain ⟨l1, l2, hdec, hpre, hp⟩ := find?_decomp htxn
  have h := (returnBookAux_found_txns_copies today reqUser copyId cfg db txn htxn).1
  have hrb : returnBook none today reqUser copyId db =
      returnBookAux none today reqUser copyId cfg db := by
    simp [returnBook, hcfg]
  refine ⟨l1, l2,
    { txn with returnDate := some today, status := "Returned",
               fine := computeFine today txn.dueDate cfg.finePerDay,
               isFinePaid := computeFine today txn.dueDate cfg.finePerDay == 0 },
    hdec, ?_, rfl, rfl, ?_⟩
  · rw [hrb, h, hdec, updateFirst_at _ _ l2 txn hpre hp]
  · simp [computeFine]

def cfgEx : SystemConfig :=
  { maxBooksPerStudent := 3, issueDaysLimit := 14, finePerDay := 5 }

def txnEx : Transaction :=
  { student := 1, book := 0, copyId := "isbn-1", dueDate := 10, returnDate := none,
    status := "Issued", fine := 0, isFinePaid := false }

def userEx : User :=
  { id := 1, name := "Asha", registerNumber := "R1", isActive := true }

def dbEx : Db :=
  { config := some cfgEx,
    users := [userEx],
    books := [{ id := 0, title := "T", author := "A", isbn := "isbn",
                department := "CSE", totalCopies := 1, availableCopies := 0 }],
    copies := [{ id := 0, book := 0, copyNumber := "isbn-1", status := "Issued" }],
    txns := [txnEx],
    deptCodes := ["CSE"],
    audits := [], nextBookId := 1, nextCopyId := 1 }

theorem returnBook_records_fine_witness :
    (dbEx.config = some cfgEx ∧
     dbEx.txns.find? (fun t => t.copyId = "isbn-1" && t.status = "Issued") = some txnEx) ∧
    (∃ l1 l2 t', dbEx.txns = l1 ++ txnEx :: l2 ∧
      (returnBook none 13 none "isbn-1" dbEx).2.txns = l1 ++ t' :: l2 ∧
      t'.status = "Returned" ∧ t'.returnDate = some (13 : Int) ∧
      t'.fine = (if txnEx.dueDate < (13 : Int)
                 then ((13 : Int) - txnEx.dueDate).toNat * cfgEx.finePerDay else 0)) :=
  ⟨⟨by decide, by decide⟩,
   returnBook_records_fine 13 none "isbn-1" dbEx cfgEx txnEx (by decide) (by decide)⟩

/-- A store in which the student already holds three `Issued` transactions
(the configured maximum of `cfgEx`). -/
def dbEx3 : Db :=
  { dbEx with txns := [txnEx, { txnEx with copyId := "isbn-2" },
                       { txnEx with copyId := "isbn-3" }] }

theorem issueBook_limit_rejected_witness :
    (dbEx3.config = some cfgEx ∧
     dbEx3.users.find? (fun u => u.id = 1) = some userEx ∧
     cfgEx.maxBooksPerStudent ≤
       ((dbEx3.txns.filter (fun t => t.student = userEx.id && t.status = "Issued")).length)) ∧
    ((issueBook none 0 none 1 "isbn" none dbEx3).1.code = 400 ∧
     (issueBook none 0 none 1 "isbn" none dbEx3).2 = dbEx3) :=
  ⟨⟨by decide, by decide, by decide⟩,
   issueBook_limit_rejected 0 none 1 "isbn" none dbEx3 cfgEx userEx (by decide) (by decide)
     (by decide)⟩

/-! ### Rollback on a failed issue with an explicit copyId (C6) -/

theorem issueCatch_resp (copyId : Option String) (msg : String) (db : Db) :
    (issueCatch copyId msg db).1 = ⟨500, msg⟩ := by
  cases copyId <;> rfl

/-- `updateFirst` with a key-preserving rewrite keeps any pairwise relation
on keys. -/
theorem pairwise_key_updateFirst {α β : Type} (key : α → β) (R : β → β → Prop)
    (p : α → Bool) (f : α → α) (hf : ∀ a, key (f a) = key a) (l : List α)
    (h : l.Pairwise (fun a b => R (key a) (key b))) :
    (updateFirst p f l).Pairwise (fun a b => R (key a) (key b)) := by
  induction l with
  | nil => exact h
  | cons a l ih =>
    rcases List.pairwise_cons.mp h with ⟨ha, hl⟩
    simp only [updateFirst]
    by_cases hp : p a
    · simp only [hp, if_true]
      exact List.pairwise_cons.mpr ⟨fun b hb => by rw [hf]; exact ha b hb, hl⟩
    · simp only [hp, if_false]
      refine List.pairwise_cons.mpr ⟨?_, ih hl⟩
      intro b hb
      rcases mem_updateFirst hb with hb | ⟨a', ha', rfl⟩
      · exact ha b hb
      · rw [hf]; exact ha a' ha'

/-- After the catch handler of `issueBook` runs for an explicit `copyId`, no
copy with that number is left non-`Available` (when copy numbers are unique,
which the schema's unique index guarantees). -/
theorem issueCatch_resets (cid : String) (msg : String) (db : Db)
    (huniq : db.copies.Pairwise (fun a b => a.copyNumber ≠ b.copyNumber)) :
    ∀ c ∈ (issueCatch (some cid) msg db).2.copies, c.copyNumber = cid →
      c.status = "Available" := by
  intro c hc hcid
  simp only [issueCatch] at hc
  cases hfind : db.copies.find? (fun x => x.copyNumber = cid) with
  | none =>
    rw [updateFirst_of_none _ _ (by
      intro x hx
      have := List.find?_eq_none.mp hfind x hx
      simpa using this)] at hc
    have := List.find?_eq_none.mp hfind c hc
    simp [hcid] at this
  | some c0 =>
    obtain ⟨l1, l2, hdec, hpre, hp⟩ := find?_decomp hfind
    rw [hdec, updateFirst_at _ _ l2 c0 hpre hp] at hc
    rw [hdec] at huniq
    rcases List.mem_append.mp hc with hc1 | hc2
    · have := hpre c hc1
      simp [hcid] at this
    · rcases List.mem_cons.mp hc2 with rfl | hc2
      · rfl
      · exfalso
        have hc0 : c0.copyNumber = cid := by simpa using hp
        have := (List.pairwise_append.mp huniq).2.1
        have := (List.pairwise_cons.mp this).1 c hc2
        exact this (hc0.trans hcid.symm)

/-- A 500 from `issueFinish` is the catch handler applied to a state whose
copy list it did not change. -/
theorem issueFinish_500 (failAt : Option Nat) (today : Int) (reqUser : Option Nat)
    (student : User) (cfg : SystemConfig) (tc : BookCopy) (copyId : Option String)
    (db : Db)
    (h : (issueFinish failAt today reqUser student cfg tc copyId db).1.code = 500) :
    ∃ msg dbJ, issueFinish failAt today reqUser student cfg tc copyId db =
      issueCatch copyId msg dbJ ∧ dbJ.copies = db.copies := by
  unfold issueFinish at h ⊢
  split
  · exact ⟨"db error", db, rfl, rfl⟩
  · split
    · exact ⟨"db error", _, rfl, rfl⟩
    · exfalso
      revert h
      cases reqUser <;> simp_all [logAudit]

/-- Every 500 response of `issueBookAux` is produced by the catch handler,
applied to a state whose copy list is the original one or the original one
with one copy's status rewritten to `Issued`. -/
theorem issueBookAux_500 (failAt : Option Nat) (today : Int) (reqUser : Option Nat)
    (studentId : Nat) (isbn : String) (copyId : Option String) (cfg : SystemConfig)
    (db : Db)
    (h : (issueBookAux failAt today reqUser studentId isbn copyId cfg db).1.code = 500) :
    ∃ msg dbJ, issueBookAux failAt today reqUser studentId isbn copyId cfg db =
      issueCatch copyId msg dbJ ∧
      (dbJ.copies = db.copies ∨
       ∃ p, dbJ.copies =
         updateFirst p (fun c => { c with status := "Issued" }) db.copies) := by
  by_cases h2 : failAt = some 2
  · exact ⟨"db error", db, by simp [issueBookAux, h2], Or.inl rfl⟩
  cases hu : db.users.find? (fun u => u.id = studentId) with
  | none => simp [issueBookAux, h2, hu] at h
  | some student =>
  cases hact : student.isActive with
  | false => simp [issueBookAux, h2, hu, hact] at h
  | true =>
  by_cases h3 : failAt = some 3
  · exact ⟨"db error", db, by simp [issueBookAux, h2, hu, hact, h3], Or.inl rfl⟩
  by_cases hlim : cfg.maxBooksPerStudent ≤
      (db.txns.filter (fun t => t.student = student.id && t.status = "Issued")).length
  · simp [issueBookAux, h2, hu, hact, h3, hlim] at h
  cases copyId with
  | some cid =>
    by_cases h4 : failAt = some 4
    · exact ⟨"db error", db, by simp [issueBookAux, h2, hu, hact, h3, hlim, h4],
        Or.inl rfl⟩
    cases hc : db.copies.find? (fun c => c.copyNumber = cid && c.status = "Available") with
    | none => simp [issueBookAux, h2, hu, hact, h3, hlim, h4, hc] at h
    | some c0 =>
      have hred : issueBookAux failAt today reqUser studentId isbn (some cid) cfg db =
          issueFinish failAt today reqUser student cfg { c0 with status := "Issued" }
            (some cid)
            { db with
                copies := updateFirst (fun c => c.copyNumber = cid && c.status = "Available")
                            (fun c => { c with status := "Issued" }) db.copies } := by
        simp [issueBookAux, h2, hu, hact, h3, hlim, h4, hc]
      rw [hred] at h
      obtain ⟨msg, dbJ, heq, hcop⟩ := issueFinish_500 _ _ _ _ _ _ _ _ h
      exact ⟨msg, dbJ, hred.trans heq,
        Or.inr ⟨(fun c => c.copyNumber = cid && c.status = "Available"), hcop⟩⟩
  | none =>
    by_cases h5 : failAt = some 5
    · exact ⟨"db error", db, by simp [issueBookAux, h2, hu, hact, h3, hlim, h5],
        Or.inl rfl⟩
    cases hb : db.books.find? (fun b => b.isbn = isbn) with
    | none => simp [issueBookAux, h2, hu, hact, h3, hlim, h5, hb] at h
    | some book =>
      by_cases h6 : failAt = some 6
      · exact ⟨"db error", db, by simp [issueBookAux, h2, hu, hact, h3, hlim, h5, hb, h6],
          Or.inl rfl⟩
      cases hc : db.copies.find? (fun c => c.book = book.id && c.status = "Available") with
      | none => simp [issueBookAux, h2, hu, hact, h3, hlim, h5, hb, h6, hc] at h
      | some c0 =>
        have hred : issueBookAux failAt today reqUser studentId isbn none cfg db =
            issueFinish failAt today reqUser student cfg { c0 with status := "Issued" }
              none
              { db with
                  copies := updateFirst (fun c => c.book = book.id && c.status = "Available")
                              (fun c => { c with status := "Issued" }) db.copies } := by
          simp [issueBookAux, h2, hu, hact, h3, hlim, h5, hb, h6, hc]
        rw [hred] at h
        obtain ⟨msg, dbJ, heq, hcop⟩ := issueFinish_500 _ _ _ _ _ _ _ _ h
        exact ⟨msg, dbJ, hred.trans heq,
          Or.inr ⟨(fun c => c.book = book.id && c.status = "Available"), hcop⟩⟩

/-- Every 500 response of `issueBook` is produced by the catch handler, on a
state whose copy list differs from the request's pre-state at most by one
status rewritten to `Issued`. -/
theorem issueBook_500 (failAt : Option Nat) (today : Int) (reqUser : Option Nat)
    (studentId : Nat) (isbn : String) (copyId : Option String) (db : Db)
    (h : (issueBook failAt today reqUser studentId isbn copyId db).1.code = 500) :
    ∃ msg dbJ, issueBook failAt today reqUser studentId isbn copyId db =
      issueCatch copyId msg dbJ ∧
      (dbJ.copies = db.copies ∨
       ∃ p, dbJ.copies =
         updateFirst p (fun c => { c with status := "Issued" }) db.copies) := by
  by_cases h0 : failAt = some 0
  · exact ⟨"db error", db, by simp [issueBook, h0], Or.inl rfl⟩
  cases hcfg : db.config with
  | some cfg =>
    have hred : issueBook failAt today reqUser studentId isbn copyId db =
        issueBookAux failAt today reqUser studentId isbn copyId cfg db := by
      simp [issueBook, h0, hcfg]
    rw [hred] at h ⊢
    exact issueBookAux_500 _ _ _ _ _ _ _ _ h
  | none =>
    by_cases h1 : failAt = some 1
    · exact ⟨"db error", db, by simp [issueBook, h0, hcfg, h1], Or.inl rfl⟩
    have hred : issueBook failAt today reqUser studentId isbn copyId db =
        issueBookAux failAt today reqUser studentId isbn copyId defaultConfig
          { db with config := some defaultConfig } := by
      simp [issueBook, h0, hcfg, h1]
    rw [hred] at h ⊢
    exact issueBookAux_500 _ _ _ _ _ _ _ _ h

/-- C6: if an error is thrown during `issueBook` for a request that carried
an explicit `copyId`, the catch handler's best-effort rollback sets that copy
back to `Available`, so a failed issue (500) with an explicit `copyId` never
leaves the copy marked `Issued`. -/
theorem issueBook_failed_rollback (failAt : Option Nat) (today : Int)
    (reqUser : Option Nat) (studentId : Nat) (isbn : String) (cid : String) (db : Db)
    (huniq : db.copies.Pairwise (fun a b => a.copyNumber ≠ b.copyNumber))
    (h500 : (issueBook failAt today reqUser studentId isbn (some cid) db).1.code = 500) :
    ∀ c ∈ (issueBook failAt today reqUser studentId isbn (some cid) db).2.copies,
      c.copyNumber = cid → c.status = "Available" := by
  obtain ⟨msg, dbJ, heq, hcop⟩ := issueBook_500 _ _ _ _ _ _ _ h500
  rw [heq]
  apply issueCatch_resets
  rcases hcop with hcop | ⟨p, hcop⟩
  · rw [hcop]; exact huniq
  · rw [hcop]
    exact pairwise_key_updateFirst (fun c : BookCopy => c.copyNumber) (fun a b => a ≠ b) p
      (fun c => { c with status := "Issued" }) (fun a => rfl) db.copies huniq

/-- A store in which issuing copy `isbn-1` to student 1 can succeed up to the
transaction-creation step. -/
def dbAvail : Db :=
  { dbEx with
    copies := [{ id := 0, book := 0, copyNumber := "isbn-1", status := "Available" }],
    txns := [],
    books := [{ id := 0, title := "T", author := "A", isbn := "isbn",
                department := "CSE", totalCopies := 1, availableCopies := 1 }] }

theorem issueBook_failed_rollback_witness :
    (dbAvail.copies.Pairwise (fun a b => a.copyNumber ≠ b.copyNumber) ∧
     (issueBook (some 8) 0 none 1 "isbn" (some "isbn-1") dbAvail).1.code = 500) ∧
    (∀ c ∈ (issueBook (some 8) 0 none 1 "isbn" (some "isbn-1") dbAvail).2.copies,
      c.copyNumber = "isbn-1" → c.status = "Available") :=
  ⟨⟨by decide, by decide⟩,
   issueBook_failed_rollback (some 8) 0 none 1 "isbn" "isbn-1" dbAvail (by decide)
     (by decide)⟩

/-! ### Failure responses are always 400/404/500 with a message (C8) -/

/-- A response either carries the handler's success code, or one of the three
failure statuses together with a non-empty `message` field. -/
abbrev RespOk (okCode : Nat) (r : Resp) : Prop :=
  r.code = okCode ∨ ((r.code = 400 ∨ r.code = 404 ∨ r.code = 500) ∧ r.message ≠ "")

theorem issueFinish_resp (failAt : Option Nat) (today : Int) (reqUser : Option Nat)
    (student : User) (cfg : SystemConfig) (tc : BookCopy) (copyId : Option String)
    (db : Db) :
    (issueFinish failAt today reqUser student cfg tc copyId db).1 =
      ⟨201, "Book Issued Successfully"⟩ ∨
    (issueFinish failAt today reqUser student cfg tc copyId db).1 = ⟨500, "db error"⟩ := by
  unfold issueFinish
  split
  · exact Or.inr (issueCatch_resp _ _ _)
  · split
    · exact Or.inr (issueCatch_resp _ _ _)
    · cases reqUser <;> exact Or.inl rfl

theorem respOk_of_eq {okCode : Nat} {r : Resp} (c : Nat) (m : String)
    (h : r = ⟨c, m⟩)
    (hd : c = okCode ∨ ((c = 400 ∨ c = 404 ∨ c = 500) ∧ m ≠ "")) :
    RespOk okCode r := by
  subst h; exact hd

theorem issueFinish_respOk (failAt : Option Nat) (today : Int) (reqUser : Option Nat)
    (student : User) (cfg : SystemConfig) (tc : BookCopy) (copyId : Option String)
    (db : Db) :
    RespOk 201 (issueFinish failAt today reqUser student cfg tc copyId db).1 := by
  rcases issueFinish_resp failAt today reqUser student cfg tc copyId db with h | h
  · exact respOk_of_eq _ _ h (by decide)
  · exact respOk_of_eq _ _ h (by decide)

theorem issueBookAux_resp (failAt : Option Nat) (today : Int) (reqUser : Option Nat)
    (studentId : Nat) (isbn : String) (copyId : Option String) (cfg : SystemConfig)
    (db : Db) :
    RespOk 201 (issueBookAux failAt today reqUser studentId isbn copyId cfg db).1 := by
  unfold issueBookAux
  dsimp only
  repeat' split
  all_goals first
    | exact issueFinish_respOk _ _ _ _ _ _ _ _
    | exact respOk_of_eq _ _ (issueCatch_resp _ _ _) (by decide)
    | exact respOk_of_eq _ _ rfl (by decide)

theorem issueBook_resp (failAt : Option Nat) (today : Int) (reqUser : Option Nat)
    (studentId : Nat) (isbn : String) (copyId : Option String) (db : Db) :
    RespOk 201 (issueBook failAt today reqUser studentId isbn copyId db).1 := by
  unfold issueBook
  repeat' split
  all_goals first
    | exact issueBookAux_resp _ _ _ _ _ _ _ _
    | exact respOk_of_eq _ _ (issueCatch_resp _ _ _) (by decide)
    | exact respOk_of_eq _ _ rfl (by decide)

theorem returnBookAux_resp (failAt : Option Nat) (today : Int) (reqUser : Option Nat)
    (copyId : String) (cfg : SystemConfig) (db : Db) :
    RespOk 200 (returnBookAux failAt today reqUser copyId cfg db).1 := by
  unfold returnBookAux
  dsimp only
  repeat' split
  all_goals exact respOk_of_eq _ _ rfl (by decide)

theorem returnBook_resp (failAt : Option Nat) (today : Int) (reqUser : Option Nat)
    (copyId : String) (db : Db) :
    RespOk 200 (returnBook failAt today reqUser copyId db).1 := by
  unfold returnBook
  repeat' split
  all_goals first
    | exact returnBookAux_resp _ _ _ _ _ _
    | exact respOk_of_eq _ _ rfl (by decide)

/-- C8: every request to `issueBook` or `returnBook` that does not succeed is
answered with status 400, 404 or 500 and a JSON body whose `message` field is
non-empty; no failure escapes with any other shape. -/
theorem circulation_failure_statuses (failAt failAt2 : Option Nat)
    (today today2 : Int) (reqUser reqUser2 : Option Nat) (studentId : Nat)
    (isbn : String) (copyId : Option String) (cid : String) (db db2 : Db) :
    ((issueBook failAt today reqUser studentId isbn copyId db).1.code = 201 ∨
      (((issueBook failAt today reqUser studentId isbn copyId db).1.code = 400 ∨
        (issueBook failAt today reqUser studentId isbn copyId db).1.code = 404 ∨
        (issueBook failAt today reqUser studentId isbn copyId db).1.code = 500) ∧
       (issueBook failAt today reqUser studentId isbn copyId db).1.message ≠ "")) ∧
    ((returnBook failAt2 today2 reqUser2 cid db2).1.code = 200 ∨
      (((returnBook failAt2 today2 reqUser2 cid db2).1.code = 400 ∨
        (returnBook failAt2 today2 reqUser2 cid db2).1.code = 404 ∨
        (returnBook failAt2 today2 reqUser2 cid db2).1.code = 500) ∧
       (returnBook failAt2 today2 reqUser2 cid db2).1.message ≠ "")) :=
  ⟨issueBook_resp failAt today reqUser studentId isbn copyId db,
   returnBook_resp failAt2 today2 reqUser2 cid db2⟩

/-! ### Successful issue and return: copies, counters, transactions (C3, C5) -/

theorem find?_updateFirst {α : Type} (p : α → Bool) (f : α → α) (l : List α)
    (hf : ∀ a, p a = true → p (f a) = true) :
    (updateFirst p f l).find? p = (l.find? p).map f := by
  induction l with
  | nil => rfl
  | cons a l ih =>
    by_cases hp : p a
    · rw [updateFirst, if_pos hp, List.find?_cons_of_pos _ (hf a hp),
        List.find?_cons_of_pos _ hp]
      rfl
    · rw [updateFirst, if_neg hp,
        List.find?_cons_of_neg _ hp, List.find?_cons_of_neg _ hp, ih]

/-- Projections of `issueFinish` with no injected error. -/
theorem issueFinish_none (today : Int) (reqUser : Option Nat) (student : User)
    (cfg : SystemConfig) (tc : BookCopy) (copyId : Option String) (db : Db) :
    ((issueFinish none today reqUser student cfg tc copyId db).1 =
       ⟨201, "Book Issued Successfully"⟩) ∧
    (issueFinish none today reqUser student cfg tc copyId db).2.copies = db.copies ∧
    (issueFinish none today reqUser student cfg tc copyId db).2.books =
      updateFirst (fun b => b.id = tc.book)
        (fun b => { b with availableCopies := b.availableCopies - 1 }) db.books ∧
    (issueFinish none today reqUser student cfg tc copyId db).2.txns =
      db.txns ++ [{ student := student.id, book := tc.book, copyId := tc.copyNumber,
                    dueDate := today + cfg.issueDaysLimit, returnDate := none,
                    status := "Issued", fine := 0, isFinePaid := false }] := by
  cases reqUser <;> simp [issueFinish, logAudit]

/-- Characterization of a successful (201) `issueBook`: some copy flips from
`Available` to `Issued`, that copy's book has `availableCopies` decremented
by one, and the created transaction pairs the student with the copy. -/
theorem issueBook_success (today : Int) (reqUser : Option Nat) (studentId : Nat)
    (isbn : String) (copyId : Option String) (db : Db) (cfg : SystemConfig)
    (hcfg : db.config = some cfg)
    (h : (issueBook none today reqUser studentId isbn copyId db).1.code = 201) :
    ∃ l1 c0 l2,
      db.copies = l1 ++ c0 :: l2 ∧ c0.status = "Available" ∧
      (issueBook none today reqUser studentId isbn copyId db).2.copies =
        l1 ++ { c0 with status := "Issued" } :: l2 ∧
      (issueBook none today reqUser studentId isbn copyId db).2.books =
        updateFirst (fun b => b.id = c0.book)
          (fun b => { b with availableCopies := b.availableCopies - 1 }) db.books ∧
      (issueBook none today reqUser studentId isbn copyId db).2.txns =
        db.txns ++ [{ student := studentId, book := c0.book, copyId := c0.copyNumber,
                      dueDate := today + cfg.issueDaysLimit, returnDate := none,
                      status := "Issued", fine := 0, isFinePaid := false }] := by
  have hrb : issueBook none today reqUser studentId isbn copyId db =
      issueBookAux none today reqUser studentId isbn copyId cfg db := by
    simp [issueBook, hcfg]
  rw [hrb] at h ⊢
  cases hu : db.users.find? (fun u => u.id = studentId) with
  | none => simp [issueBookAux, hu] at h
  | some student =>
  have hsid : student.id = studentId := by
    have := List.find?_some hu
    simpa using this
  cases hact : student.isActive with
  | false => simp [issueBookAux, hu, hact] at h
  | true =>
  by_cases hlim : cfg.maxBooksPerStudent ≤
      (db.txns.filter (fun t => t.student = student.id && t.status = "Issued")).length
  · simp [issueBookAux, hu, hact, hlim] at h
  cases copyId with
  | some cid =>
    cases hc : db.copies.find? (fun c => c.copyNumber = cid && c.status = "Available") with
    | none => simp [issueBookAux, hu, hact, hlim, hc] at h
    | some c0 =>
      obtain ⟨l1, l2, hdec, hpre, hp⟩ := find?_decomp hc
      have hstat : c0.status = "Available" := by
        have h2 := hp
        simp at h2
        exact h2.2
      have hred : issueBookAux none today reqUser studentId isbn (some cid) cfg db =
          issueFinish none today reqUser student cfg { c0 with status := "Issued" }
            (some cid)
            { db with
                copies := updateFirst (fun c => c.copyNumber = cid && c.status = "Available")
                            (fun c => { c with status := "Issued" }) db.copies } := by
        simp [issueBookAux, hu, hact, hlim, hc]
      obtain ⟨-, hcop, hbooks, htxns⟩ := issueFinish_none today reqUser student cfg
        { c0 with status := "Issued" } (some cid)
        { db with
            copies := updateFirst (fun c => c.copyNumber = cid && c.status = "Available")
                        (fun c => { c with status := "Issued" }) db.copies }
      refine ⟨l1, c0, l2, hdec, hstat, ?_, ?_, ?_⟩
      · rw [hred, hcop]
        simp only []
        rw [hdec, updateFirst_at _ _ l2 c0 hpre hp]
      · rw [hred, hbooks]
      · rw [hred, htxns, hsid]
  | none =>
    cases hb : db.books.find? (fun b => b.isbn = isbn) with
    | none => simp [issueBookAux, hu, hact, hlim, hb] at h
    | some book =>
    cases hc : db.copies.find? (fun c => c.book = book.id && c.status = "Available") with
    | none => simp [issueBookAux, hu, hact, hlim, hb, hc] at h
    | some c0 =>
      obtain ⟨l1, l2, hdec, hpre, hp⟩ := find?_decomp hc
      have hstat : c0.status = "Available" := by
        have h2 := hp
        simp at h2
        exact h2.2
      have hred : issueBookAux none today reqUser studentId isbn none cfg db =
          issueFinish none today reqUser student cfg { c0 with status := "Issued" }
            none
            { db with
                copies := updateFirst (fun c => c.book = book.id && c.status = "Available")
                            (fun c => { c with status := "Issued" }) db.copies } := by
        simp [issueBookAux, hu, hact, hlim, hb, hc]
      obtain ⟨-, hcop, hbooks, htxns⟩ := issueFinish_none today reqUser student cfg
        { c0 with status := "Issued" } none
        { db with
            copies := updateFirst (fun c => c.book = book.id && c.status = "Available")
                        (fun c => { c with status := "Issued" }) db.copies }
      refine ⟨l1, c0, l2, hdec, hstat, ?_, ?_, ?_⟩
      · rw [hred, hcop]
        simp only []
        rw [hdec, updateFirst_at _ _ l2 c0 hpre hp]
      · rw [hred, hbooks]
      · rw [hred, htxns, hsid]

/-- Projection of `returnBookAux` (no injected error): once the transaction is
found and the re-fetched copy is `c0'`, the book list of the final state has
`availableCopies` of `c0'.book` incremented by one. -/
theorem returnBookAux_found_books (today : Int) (reqUser : Option Nat) (cid : String)
    (cfg : SystemConfig) (db : Db) (txn : Transaction) (c0' : BookCopy)
    (htxn : db.txns.find? (fun t => t.copyId = cid && t.status = "Issued") = some txn)
    (hfind2 : (updateFirst (fun c => c.copyNumber = cid)
        (fun c => { c with status := "Available" }) db.copies).find?
          (fun c => c.copyNumber = cid) = some c0') :
    (returnBookAux none today reqUser cid cfg db).2.books =
      updateFirst (fun b => b.id = c0'.book)
        (fun b => { b with availableCopies := b.availableCopies + 1 }) db.books := by
  simp only [returnBookAux, htxn]
  simp only [show ((none : Option Nat) = some 2) = False from by simp,
    show ((none : Option Nat) = some 4) = False from by simp,
    show ((none : Option Nat) = some 5) = False from by simp,
    show ((none : Option Nat) = some 6) = False from by simp,
    show ((none : Option Nat) = some 7) = False from by simp,
    if_false]
  simp only [hfind2]
  cases reqUser <;>
    · simp only [logAudit]
      split <;> rfl

/-- Characterization of a successful (200) `returnBook`: the returned copy's
status is set to `Available` and its book's `availableCopies` is incremented
by one. -/
theorem returnBook_success (today : Int) (reqUser : Option Nat) (cid : String)
    (db : Db) (cfg : SystemConfig)
    (hcfg : db.config = some cfg)
    (h : (returnBook none today reqUser cid db).1.code = 200) :
    ∃ l1 c0 l2,
      db.copies = l1 ++ c0 :: l2 ∧ c0.copyNumber = cid ∧
      (∀ x ∈ l1, ¬ x.copyNumber = cid) ∧
      (returnBook none today reqUser cid db).2.copies =
        l1 ++ { c0 with status := "Available" } :: l2 ∧
      (returnBook none today reqUser cid db).2.books =
        updateFirst (fun b => b.id = c0.book)
          (fun b => { b with availableCopies := b.availableCopies + 1 }) db.books := by
  have hrb : returnBook none today reqUser cid db =
      returnBookAux none today reqUser cid cfg db := by simp [returnBook, hcfg]
  rw [hrb] at h ⊢
  cases htxn : db.txns.find? (fun t => t.copyId = cid && t.status = "Issued") with
  | none =>
    exfalso
    rcases hcc : db.copies.find? (fun c => c.copyNumber = cid) with _ | cc
    · simp [returnBookAux, htxn, hcc] at h
    · by_cases hav : cc.status = "Available" <;> simp [returnBookAux, htxn, hcc, hav] at h
  | some txn =>
    cases hcc : db.copies.find? (fun c => c.copyNumber = cid) with
    | none =>
      exfalso
      have hupd : updateFirst (fun c => c.copyNumber = cid)
          (fun c => { c with status := "Available" }) db.copies = db.copies :=
        updateFirst_of_none _ _ (fun x hx => by
          simpa using List.find?_eq_none.mp hcc x hx)
      simp [returnBookAux, htxn, hupd, hcc] at h
    | some c0 =>
      obtain ⟨l1, l2, hdec, hpre, hp⟩ := find?_decomp hcc
      have hcid : c0.copyNumber = cid := by simpa using hp
      have hupd : updateFirst (fun c => c.copyNumber = cid)
          (fun c => { c with status := "Available" }) db.copies =
          l1 ++ { c0 with status := "Available" } :: l2 := by
        rw [hdec]; exact updateFirst_at _ _ l2 c0 hpre hp
      have hfind2 : (updateFirst (fun c => c.copyNumber = cid)
          (fun c => { c with status := "Available" }) db.copies).find?
            (fun c => c.copyNumber = cid) = some { c0 with status := "Available" } := by
        rw [hupd]
        exact find?_at _ l2 _ hpre (by simpa using hcid)
      have hbooks := returnBookAux_found_books today reqUser cid cfg db txn
        { c0 with status := "Available" } htxn hfind2
      have hcop := (returnBookAux_found_txns_copies today reqUser cid cfg db txn htxn).2
      refine ⟨l1, c0, l2, hdec, hcid, (fun x hx => by simpa using hpre x hx), ?_, ?_⟩
      · rw [hcop, hupd]
      · rw [hbooks]

/-- C3: every successful `issueBook` flips the chosen copy from `Available`
to `Issued` and decrements the issued book's `availableCopies` by exactly 1;
every successful `returnBook` sets the copy back to `Available` and
increments that book's `availableCopies` by exactly 1. -/
theorem issue_return_counter_updates (today today2 : Int)
    (reqUser reqUser2 : Option Nat) (studentId : Nat) (isbn : String)
    (copyId : Option String) (cid : String) (db db2 : Db) (cfg cfg2 : SystemConfig)
    (hcfg : db.config = some cfg) (hcfg2 : db2.config = some cfg2) :
    ((issueBook none today reqUser studentId isbn copyId db).1.code = 201 →
      ∃ l1 c0 l2, db.copies = l1 ++ c0 :: l2 ∧ c0.status = "Available" ∧
        (issueBook none today reqUser studentId isbn copyId db).2.copies =
          l1 ++ { c0 with status := "Issued" } :: l2 ∧
        (issueBook none today reqUser studentId isbn copyId db).2.books.find?
            (fun b => b.id = c0.book) =
          (db.books.find? (fun b => b.id = c0.book)).map
            (fun b => { b with availableCopies := b.availableCopies - 1 })) ∧
    ((returnBook none today2 reqUser2 cid db2).1.code = 200 →
      ∃ l1 c0 l2, db2.copies = l1 ++ c0 :: l2 ∧ c0.copyNumber = cid ∧
        (returnBook none today2 reqUser2 cid db2).2.copies =
          l1 ++ { c0 with status := "Available" } :: l2 ∧
        (returnBook none today2 reqUser2 cid db2).2.books.find?
            (fun b => b.id = c0.book) =
          (db2.books.find? (fun b => b.id = c0.book)).map
            (fun b => { b with availableCopies := b.availableCopies + 1 })) := by
  constructor
  · intro h
    obtain ⟨l1, c0, l2, hdec, hstat, hcop, hbooks, -⟩ :=
      issueBook_success today reqUser studentId isbn copyId db cfg hcfg h
    refine ⟨l1, c0, l2, hdec, hstat, hcop, ?_⟩
    rw [hbooks, find?_updateFirst]
    intro a ha
    simpa using ha
  · intro h
    obtain ⟨l1, c0, l2, hdec, hcid, -, hcop, hbooks⟩ :=
      returnBook_success today2 reqUser2 cid db2 cfg2 hcfg2 h
    refine ⟨l1, c0, l2, hdec, hcid, hcop, ?_⟩
    rw [hbooks, find?_updateFirst]
    intro a ha
    simpa using ha

theorem issue_return_counter_updates_witness :
    (dbAvail.config = some cfgEx ∧ dbEx.config = some cfgEx) ∧
    (((issueBook none 0 none 1 "isbn" none dbAvail).1.code = 201 →
      ∃ l1 c0 l2, dbAvail.copies = l1 ++ c0 :: l2 ∧ c0.status = "Available" ∧
        (issueBook none 0 none 1 "isbn" none dbAvail).2.copies =
          l1 ++ { c0 with status := "Issued" } :: l2 ∧
        (issueBook none 0 none 1 "isbn" none dbAvail).2.books.find?
            (fun b => b.id = c0.book) =
          (dbAvail.books.find? (fun b => b.id = c0.book)).map
            (fun b => { b with availableCopies := b.availableCopies - 1 })) ∧
    ((returnBook none 13 none "isbn-1" dbEx).1.code = 200 →
      ∃ l1 c0 l2, dbEx.copies = l1 ++ c0 :: l2 ∧ c0.copyNumber = "isbn-1" ∧
        (returnBook none 13 none "isbn-1" dbEx).2.copies =
          l1 ++ { c0 with status := "Available" } :: l2 ∧
        (returnBook none 13 none "isbn-1" dbEx).2.books.find?
            (fun b => b.id = c0.book) =
          (dbEx.books.find? (fun b => b.id = c0.book)).map
            (fun b => { b with availableCopies := b.availableCopies + 1 }))) :=
  ⟨⟨by decide, by decide⟩,
   issue_return_counter_updates 0 13 none none 1 "isbn" none "isbn-1" dbAvail dbEx
     cfgEx cfgEx (by decide) (by decide)⟩

/-- C5: a successful `issueBook` creates a transaction pairing the student
with the issued copy, status `Issued`, due date equal to the issue day plus
`issueDaysLimit` days, and `isFinePaid` false; the matching `returnBook` sets
that transaction to `Returned`, records the return date and the fine, and
sets `isFinePaid` true exactly when the fine is 0. -/
theorem issue_return_transaction_lifecycle (today today2 : Int)
    (reqUser reqUser2 : Option Nat) (studentId : Nat) (isbn : String)
    (copyId : Option String) (cid : String) (db db2 : Db) (cfg cfg2 : SystemConfig)
    (txn : Transaction)
    (hcfg : db.config = some cfg) (hcfg2 : db2.config = some cfg2)
    (htxn : db2.txns.find? (fun t => t.copyId = cid && t.status = "Issued") = some txn) :
    ((issueBook none today reqUser studentId isbn copyId db).1.code = 201 →
      ∃ l1 c0 l2, db.copies = l1 ++ c0 :: l2 ∧
        (issueBook none today reqUser studentId isbn copyId db).2.txns =
          db.txns ++ [{ student := studentId, book := c0.book, copyId := c0.copyNumber,
                        dueDate := today + cfg.issueDaysLimit, returnDate := none,
                        status := "Issued", fine := 0, isFinePaid := false }]) ∧
    (∃ l1 l2 t', db2.txns = l1 ++ txn :: l2 ∧
      (returnBook none today2 reqUser2 cid db2).2.txns = l1 ++ t' :: l2 ∧
      t'.student = txn.student ∧ t'.copyId = txn.copyId ∧
      t'.status = "Returned" ∧ t'.returnDate = some today2 ∧
      t'.fine = computeFine today2 txn.dueDate cfg2.finePerDay ∧
      (t'.isFinePaid = true ↔ t'.fine = 0)) := by
  constructor
  · intro h
    obtain ⟨l1, c0, l2, hdec, -, -, -, htx⟩ :=
      issueBook_success today reqUser studentId isbn copyId db cfg hcfg h
    exact ⟨l1, c0, l2, hdec, htx⟩
  · obtain ⟨l1, l2, hdec, hpre, hp⟩ := find?_decomp htxn
    have hrb : returnBook none today2 reqUser2 cid db2 =
        returnBookAux none today2 reqUser2 cid cfg2 db2 := by
      simp [returnBook, hcfg2]
    have h := (returnBookAux_found_txns_copies today2 reqUser2 cid cfg2 db2 txn htxn).1
    refine ⟨l1, l2,
      { txn with returnDate := some today2, status := "Returned",
                 fine := computeFine today2 txn.dueDate cfg2.finePerDay,
                 isFinePaid := computeFine today2 txn.dueDate cfg2.finePerDay == 0 },
      hdec, ?_, rfl, rfl, rfl, rfl, rfl, ?_⟩
    · rw [hrb, h, hdec, updateFirst_at _ _ l2 txn hpre hp]
    · simp

theorem issue_return_transaction_lifecycle_witness :
    (dbAvail.config = some cfgEx ∧ dbEx.config = some cfgEx ∧
     dbEx.txns.find? (fun t => t.copyId = "isbn-1" && t.status = "Issued") = some txnEx) ∧
    (((issueBook none 0 none 1 "isbn" none dbAvail).1.code = 201 →
      ∃ l1 c0 l2, dbAvail.copies = l1 ++ c0 :: l2 ∧
        (issueBook none 0 none 1 "isbn" none dbAvail).2.txns =
          dbAvail.txns ++ [{ student := 1, book := c0.book, copyId := c0.copyNumber,
                             dueDate := 0 + cfgEx.issueDaysLimit, returnDate := none,
                             status := "Issued", fine := 0, isFinePaid := false }]) ∧
    (∃ l1 l2 t', dbEx.txns = l1 ++ txnEx :: l2 ∧
      (returnBook none 13 none "isbn-1" dbEx).2.txns = l1 ++ t' :: l2 ∧
      t'.student = txnEx.student ∧ t'.copyId = txnEx.copyId ∧
      t'.status = "Returned" ∧ t'.returnDate = some (13 : Int) ∧
      t'.fine = computeFine 13 txnEx.dueDate cfgEx.finePerDay ∧
      (t'.isFinePaid = true ↔ t'.fine = 0))) :=
  ⟨⟨by decide, by decide, by decide⟩,
   issue_return_transaction_lifecycle 0 13 none none 1 "isbn" none "isbn-1" dbAvail dbEx
     cfgEx cfgEx txnEx (by decide) (by decide) (by decide)⟩

/-! ### The copy-status field always stays in its three states (C4) -/

/-- The status invariant on a bare copy list. -/
def SIcopies (l : List BookCopy) : Prop := ∀ c ∈ l, validStatus c.status = true

theorem SIcopies_updateFirst_lit {l : List BookCopy} (p : BookCopy → Bool) (s : String)
    (hs : validStatus s = true) (h : SIcopies l) :
    SIcopies (updateFirst p (fun x => { x with status := s }) l) := by
  intro c hc
  rcases mem_updateFirst hc with hc | ⟨a, _, rfl⟩
  · exact h c hc
  · exact hs

theorem SIcopies_append {l1 l2 : List BookCopy} (h1 : SIcopies l1) (h2 : SIcopies l2) :
    SIcopies (l1 ++ l2) := by
  intro c hc
  rcases List.mem_append.mp hc with hc | hc
  · exact h1 c hc
  · exact h2 c hc

theorem SIcopies_mapgen (q : Nat) (f : Nat → BookCopy)
    (h : ∀ i, validStatus (f i).status = true) : SIcopies ((List.range q).map f) := by
  intro c hc
  obtain ⟨i, -, rfl⟩ := List.mem_map.mp hc
  exact h i

theorem logAudit_copies (actorId : Nat) (action details : String) (now : Nat)
    (db : Db) : (logAudit actorId action details now db).copies = db.copies := rfl

theorem issueCatch_statusInv (copyId : Option String) (msg : String) (db : Db)
    (hinv : SIcopies db.copies) : SIcopies (issueCatch copyId msg db).2.copies := by
  cases copyId
  · exact hinv
  · exact SIcopies_updateFirst_lit _ _ (by decide) hinv

theorem issueFinish_statusInv (failAt : Option Nat) (today : Int)
    (reqUser : Option Nat) (student : User) (cfg : SystemConfig) (tc : BookCopy)
    (copyId : Option String) (db : Db) (hinv : SIcopies db.copies) :
    SIcopies (issueFinish failAt today reqUser student cfg tc copyId db).2.copies := by
  unfold issueFinish
  dsimp only
  repeat' split
  all_goals first
    | exact hinv
    | exact issueCatch_statusInv _ _ _ hinv

theorem issueBookAux_statusInv (failAt : Option Nat) (today : Int)
    (reqUser : Option Nat) (studentId : Nat) (isbn : String) (copyId : Option String)
    (cfg : SystemConfig) (db : Db) (hinv : SIcopies db.copies) :
    SIcopies (issueBookAux failAt today reqUser studentId isbn copyId cfg db).2.copies := by
  unfold issueBookAux
  dsimp only
  repeat' split
  all_goals first
    | exact hinv
    | exact issueCatch_statusInv _ _ _ hinv
    | (refine issueFinish_statusInv _ _ _ _ _ _ _ _
        (SIcopies_updateFirst_lit _ _ ?_ hinv); decide)

theorem issueBook_statusInv (failAt : Option Nat) (today : Int) (reqUser : Option Nat)
    (studentId : Nat) (isbn : String) (copyId : Option String) (db : Db)
    (hinv : SIcopies db.copies) :
    SIcopies (issueBook failAt today reqUser studentId isbn copyId db).2.copies := by
  unfold issueBook
  repeat' split
  all_goals first
    | exact issueBookAux_statusInv _ _ _ _ _ _ _ _ hinv
    | exact issueCatch_statusInv _ _ _ hinv

theorem returnBookAux_statusInv (failAt : Option Nat) (today : Int)
    (reqUser : Option Nat) (cid : String) (cfg : SystemConfig) (db : Db)
    (hinv : SIcopies db.copies) :
    SIcopies (returnBookAux failAt today reqUser cid cfg db).2.copies := by
  unfold returnBookAux
  dsimp only
  repeat' split
  all_goals first
    | exact hinv
    | exact SIcopies_updateFirst_lit _ _ (by decide) hinv

theorem returnBook_statusInv (failAt : Option Nat) (today : Int) (reqUser : Option Nat)
    (cid : String) (db : Db) (hinv : SIcopies db.copies) :
    SIcopies (returnBook failAt today reqUser cid db).2.copies := by
  unfold returnBook
  repeat' split
  all_goals first
    | exact hinv
    | exact returnBookAux_statusInv _ _ _ _ _ _ hinv

theorem createBook_statusInv (title author isbn department : String) (quantity : Nat)
    (db : Db) (hinv : SIcopies db.copies) :
    SIcopies (createBook title author isbn department quantity db).2.copies := by
  unfold createBook
  dsimp only
  repeat' split
  all_goals first
    | exact hinv
    | exact SIcopies_append hinv (SIcopies_mapgen _ _ (fun i => rfl))

theorem addCopies_statusInv (bookId : Nat) (count : Nat) (db : Db)
    (hinv : SIcopies db.copies) :
    SIcopies (addCopies bookId count db).2.copies := by
  unfold addCopies
  dsimp only
  repeat' split
  all_goals first
    | exact hinv
    | exact SIcopies_append hinv (SIcopies_mapgen _ _ (fun i => rfl))

theorem updateCopyStatus_statusInv (id : Nat) (status : String) (db : Db)
    (hinv : SIcopies db.copies) :
    SIcopies (updateCopyStatus id status db).2.copies := by
  unfold updateCopyStatus
  dsimp only
  repeat' split
  all_goals first
    | exact hinv
    | exact SIcopies_updateFirst_lit _ _ ‹_› hinv

/-- C4: the status of every copy is always one of `Available`, `Issued`,
`Lost`: each operation that writes a copy's status (`createBook`,
`addCopies`, `updateCopyStatus`, `issueBook`, `returnBook`) keeps every copy
in one of the three states. -/
theorem copy_status_three_states (db : Db) (failAt failAt2 : Option Nat)
    (today today2 : Int) (reqUser reqUser2 : Option Nat) (studentId : Nat)
    (title author isbn department isbn2 status cid : String)
    (quantity count bookId copyDocId : Nat) (copyId : Option String)
    (hinv : StatusInv db) :
    StatusInv (createBook title author isbn department quantity db).2 ∧
    StatusInv (addCopies bookId count db).2 ∧
    StatusInv (updateCopyStatus copyDocId status db).2 ∧
    StatusInv (issueBook failAt today reqUser studentId isbn2 copyId db).2 ∧
    StatusInv (returnBook failAt2 today2 reqUser2 cid db).2 :=
  ⟨createBook_statusInv title author isbn department quantity db hinv,
   addCopies_statusInv bookId count db hinv,
   updateCopyStatus_statusInv copyDocId status db hinv,
   issueBook_statusInv failAt today reqUser studentId isbn2 copyId db hinv,
   returnBook_statusInv failAt2 today2 reqUser2 cid db hinv⟩

theorem copy_status_three_states_witness :
    StatusInv dbEx ∧
    (StatusInv (createBook "T2" "A2" "isbn2" "CSE" 2 dbEx).2 ∧
     StatusInv (addCopies 0 1 dbEx).2 ∧
     StatusInv (updateCopyStatus 0 "Lost" dbEx).2 ∧
     StatusInv (issueBook none 0 none 1 "isbn" none dbEx).2 ∧
     StatusInv (returnBook none 13 none "isbn-1" dbEx).2) :=
  ⟨by decide,
   copy_status_three_states dbEx none none 0 13 none none 1 "T2" "A2" "isbn2" "CSE"
     "isbn" "Lost" "isbn-1" 2 1 0 0 none (by decide)⟩

/-! ### CSV bulk upload, per-row behavior (C7) -/

theorem length_filterMap_of_none {α : Type} {g : Nat → α} {test : Nat → Bool} :
    ∀ l : List Nat, (∀ j ∈ l, test j = false) →
      (l.filterMap (fun j => if test j then none else some (g j))).length = l.length := by
  intro l
  induction l with
  | nil => intro _; rfl
  | cons a l ih =>
    intro h
    have ha : test a = false := h a (List.mem_cons_self a l)
    simp only [List.filterMap_cons, ha, Bool.false_eq_true, if_false, List.length_cons]
    rw [ih (fun j hj => h j (List.mem_cons_of_mem a hj))]

theorem mem_filterMap_ite {α : Type} {g : Nat → α} {test : Nat → Bool} {l : List Nat}
    {c : α} (h : c ∈ l.filterMap (fun j => if test j then none else some (g j))) :
    ∃ j, j ∈ l ∧ c = g j := by
  obtain ⟨j, hj, hc⟩ := List.mem_filterMap.mp h
  by_cases ht : test j
  · simp [ht] at hc
  · simp only [ht, Bool.false_eq_true, if_false, Option.some.injEq] at hc
    exact ⟨j, hj, hc.symm⟩

/-- What the copy-generation step of one CSV row does: appends some list of
copies of the given book (all `Available`), adds its length to both counters
of that book, and touches nothing else; when no stored copy is numbered under
the ISBN, exactly `quantity` copies are inserted. -/
theorem insertRowCopies_spec (isbn : String) (quantity : Nat) (book : Book)
    (st : UploadState) :
    ∃ cs : List BookCopy,
      (∀ c ∈ cs, c.book = book.id ∧ c.status = "Available") ∧
      (insertRowCopies isbn quantity book st).db.copies = st.db.copies ++ cs ∧
      (insertRowCopies isbn quantity book st).db.books =
        updateFirst (fun b => b.id = book.id)
          (fun b => { b with totalCopies := b.totalCopies + (cs.length : Int),
                             availableCopies := b.availableCopies + (cs.length : Int) })
          st.db.books ∧
      (insertRowCopies isbn quantity book st).updated = st.updated ∧
      (insertRowCopies isbn quantity book st).added = st.added ∧
      (insertRowCopies isbn quantity book st).errors = st.errors ∧
      ((∀ s, st.db.copies.find? (fun c => c.copyNumber = isbn ++ "-" ++ s) = none) →
        cs.length = quantity) := by
  refine ⟨_, ?_, rfl, rfl, rfl, rfl, rfl, ?_⟩
  · intro c hc
    obtain ⟨j, -, hc⟩ := List.mem_filterMap.mp hc
    split at hc
    · exact absurd hc (by simp)
    · cases hc
      exact ⟨rfl, rfl⟩
  · intro hno
    rw [length_filterMap_of_none _ (fun j _ => by
      rw [hno (toString (book.totalCopies + 1 + Int.ofNat j))]
      rfl)]
    exact List.length_range quantity

/-- C7: a CSV row missing ISBN or title, or whose department code is not
among the existing codes (case-insensitively), is skipped with an error and
changes nothing; a valid row with a new ISBN creates the book and its copies
and increments `added`; a valid row with an existing ISBN increments
`updated`. -/
theorem uploadBookCSV_row_behavior (vdc : List String) (st : UploadState)
    (row : CsvRow)
    (hfresh : ∀ b ∈ st.db.books, b.id ≠ st.db.nextBookId) :
    ((row.isbn = none ∨ row.title = none) →
      processRow vdc st row =
        { st with errors := st.errors ++ ["Row missing ISBN or Title"] }) ∧
    (∀ i t, row.isbn = some i → row.title = some t →
      (match row.dept with
       | none => false
       | some d => vdc.contains d.toUpper) = false →
      processRow vdc st row =
        { st with errors := st.errors ++
            ["ISBN " ++ i ++ ": Invalid or Missing Department. Please add Dept first."] }) ∧
    (∀ i t book, row.isbn = some i → row.title = some t →
      (match row.dept with
       | none => false
       | some d => vdc.contains d.toUpper) = true →
      st.db.books.find? (fun b => b.isbn = i) = some book →
      (processRow vdc st row).updated = st.updated + 1 ∧
      (processRow vdc st row).added = st.added ∧
      (processRow vdc st row).errors = st.errors) ∧
    (∀ i t, row.isbn = some i → row.title = some t →
      (match row.dept with
       | none => false
       | some d => vdc.contains d.toUpper) = true →
      st.db.books.find? (fun b => b.isbn = i) = none →
      (processRow vdc st row).added = st.added + 1 ∧
      (processRow vdc st row).updated = st.updated ∧
      (processRow vdc st row).errors = st.errors ∧
      ∃ bk cs, bk.isbn = i ∧ bk.title = t ∧
        (processRow vdc st row).db.books = st.db.books ++ [bk] ∧
        (processRow vdc st row).db.copies = st.db.copies ++ cs ∧
        (∀ c ∈ cs, c.book = bk.id ∧ c.status = "Available") ∧
        ((∀ s, st.db.copies.find? (fun c => c.copyNumber = i ++ "-" ++ s) = none) →
          cs.length = row.quantity)) := by
  refine ⟨?_, ?_, ?_, ?_⟩
  · rintro (h | h)
    · simp only [processRow, h]
    · rcases hisbn : row.isbn with _ | i
      · simp only [processRow, hisbn]
      · simp only [processRow, hisbn, h]
  · intro i t hisbn htitle hdept
    simp only [processRow, hisbn, htitle, hdept, Bool.not_false, if_pos]
  · intro i t book hisbn htitle hdept hfind
    simp only [processRow, hisbn, htitle, hdept, Bool.not_true, Bool.false_eq_true,
      if_false, hfind]
    exact ⟨rfl, rfl, rfl⟩
  · intro i t hisbn htitle hdept hfind
    simp only [processRow, hisbn, htitle, hdept, Bool.not_true, Bool.false_eq_true,
      if_false, hfind]
    obtain ⟨cs, hmem, hcop, hbooks, -, -, -, hlen⟩ := insertRowCopies_spec i row.quantity
      { id := st.db.nextBookId, title := t, author := (row.author.getD ""),
        isbn := i, department := ((row.dept.getD "").toUpper),
        totalCopies := 0, availableCopies := 0 }
      { st with
          db := { st.db with
                    books := st.db.books ++
                      [{ id := st.db.nextBookId, title := t,
                         author := (row.author.getD ""), isbn := i,
                         department := ((row.dept.getD "").toUpper),
                         totalCopies := 0, availableCopies := 0 }],
                    nextBookId := st.db.nextBookId + 1 },
          added := st.added + 1 }
    refine ⟨rfl, rfl, rfl, ?_⟩
    rw [hbooks]
    rw [updateFirst_at _ _ ([] : List Book) _
      (fun x hx => by simpa using hfresh x hx) (by simp)]
    refine ⟨_, cs, rfl, rfl, rfl, hcop, ?_, hlen⟩
    intro c hc
    exact hmem c hc

def stEx : UploadState := { db := dbEx, errors := [], added := 0, updated := 0 }

def rowEx : CsvRow :=
  { title := some "T3", author := some "A3", isbn := some "isbn3",
    dept := some "cse", quantity := 2 }

theorem uploadBookCSV_row_behavior_witness :
    (∀ b ∈ stEx.db.books, b.id ≠ stEx.db.nextBookId) ∧
    (((rowEx.isbn = none ∨ rowEx.title = none) →
      processRow ["CSE"] stEx rowEx =
        { stEx with errors := stEx.errors ++ ["Row missing ISBN or Title"] }) ∧
    (∀ i t, rowEx.isbn = some i → rowEx.title = some t →
      (match rowEx.dept with
       | none => false
       | some d => List.contains ["CSE"] d.toUpper) = false →
      processRow ["CSE"] stEx rowEx =
        { stEx with errors := stEx.errors ++
            ["ISBN " ++ i ++ ": Invalid or Missing Department. Please add Dept first."] }) ∧
    (∀ i t book, rowEx.isbn = some i → rowEx.title = some t →
      (match rowEx.dept with
       | none => false
       | some d => List.contains ["CSE"] d.toUpper) = true →
      stEx.db.books.find? (fun b => b.isbn = i) = some book →
      (processRow ["CSE"] stEx rowEx).updated = stEx.updated + 1 ∧
      (processRow ["CSE"] stEx rowEx).added = stEx.added ∧
      (processRow ["CSE"] stEx rowEx).errors = stEx.errors) ∧
    (∀ i t, rowEx.isbn = some i → rowEx.title = some t →
      (match rowEx.dept with
       | none => false
       | some d => List.contains ["CSE"] d.toUpper) = true →
      stEx.db.books.find? (fun b => b.isbn = i) = none →
      (processRow ["CSE"] stEx rowEx).added = stEx.added + 1 ∧
      (processRow ["CSE"] stEx rowEx).updated = stEx.updated ∧
      (processRow ["CSE"] stEx rowEx).errors = stEx.errors ∧
      ∃ bk cs, bk.isbn = i ∧ bk.title = t ∧
        (processRow ["CSE"] stEx rowEx).db.books = stEx.db.books ++ [bk] ∧
        (processRow ["CSE"] stEx rowEx).db.copies = stEx.db.copies ++ cs ∧
        (∀ c ∈ cs, c.book = bk.id ∧ c.status = "Available") ∧
        ((∀ s, stEx.db.copies.find?
            (fun c => c.copyNumber = i ++ "-" ++ s) = none) →
          cs.length = rowEx.quantity))) :=
  ⟨by decide, uploadBookCSV_row_behavior ["CSE"] stEx rowEx (by decide)⟩

/-! ### Counter-invariant preservation (C9) -/

theorem cAvail_of_book_ne {bid : Nat} {l : List BookCopy}
    (h : ∀ c ∈ l, c.book ≠ bid) : cAvail bid l = 0 := by
  unfold cAvail
  rw [List.filter_eq_nil_iff.mpr (fun a ha => by simp [h a ha])]
  rfl

theorem cTotal_of_book_ne {bid : Nat} {l : List BookCopy}
    (h : ∀ c ∈ l, c.book ≠ bid) : cTotal bid l = 0 := by
  unfold cTotal
  rw [List.filter_eq_nil_iff.mpr (fun a ha => by simp [h a ha])]
  rfl

theorem cAvail_all {bid : Nat} {l : List BookCopy}
    (h : ∀ c ∈ l, c.book = bid ∧ c.status = "Available") : cAvail bid l = l.length := by
  unfold cAvail
  rw [List.filter_eq_self.mpr (fun a ha => by simp [(h a ha).1, (h a ha).2])]

theorem cTotal_all {bid : Nat} {l : List BookCopy}
    (h : ∀ c ∈ l, c.book = bid) : cTotal bid l = l.length := by
  unfold cTotal
  rw [List.filter_eq_self.mpr (fun a ha => by simp [h a ha])]

theorem cAvail_middle (bid : Nat) (l1 l2 : List BookCopy) (x : BookCopy) :
    cAvail bid (l1 ++ x :: l2) =
      cAvail bid l1 +
        ((if x.book = bid ∧ x.status = "Available" then 1 else 0) + cAvail bid l2) := by
  rw [cAvail_append, cAvail_cons]

theorem cTotal_middle (bid : Nat) (l1 l2 : List BookCopy) (x : BookCopy) :
    cTotal bid (l1 ++ x :: l2) =
      cTotal bid l1 + ((if x.book = bid then 1 else 0) + cTotal bid l2) := by
  rw [cTotal_append, cTotal_cons]

theorem cAvail_replace_delta (bid : Nat) (l1 l2 : List BookCopy) (c c' : BookCopy) :
    (cAvail bid (l1 ++ c' :: l2) : Int) =
      (cAvail bid (l1 ++ c :: l2) : Int) +
      ((if c'.book = bid ∧ c'.status = "Available" then (1 : Int) else 0) -
       (if c.book = bid ∧ c.status = "Available" then (1 : Int) else 0)) := by
  rw [cAvail_middle, cAvail_middle]
  by_cases h1 : c'.book = bid ∧ c'.status = "Available" <;>
    by_cases h2 : c.book = bid ∧ c.status = "Available" <;>
      simp only [h1, h2, if_true, if_false, reduceIte] <;> push_cast <;> ring

theorem cTotal_replace_delta (bid : Nat) (l1 l2 : List BookCopy) (c c' : BookCopy) :
    (cTotal bid (l1 ++ c' :: l2) : Int) =
      (cTotal bid (l1 ++ c :: l2) : Int) +
      ((if c'.book = bid then (1 : Int) else 0) - (if c.book = bid then (1 : Int) else 0)) := by
  rw [cTotal_middle, cTotal_middle]
  by_cases h1 : c'.book = bid <;> by_cases h2 : c.book = bid <;>
    simp only [h1, h2, if_true, if_false, reduceIte] <;> push_cast <;> ring

theorem cAvail_delete_delta (bid : Nat) (l1 l2 : List BookCopy) (c : BookCopy) :
    (cAvail bid (l1 ++ l2) : Int) =
      (cAvail bid (l1 ++ c :: l2) : Int) -
      (if c.book = bid ∧ c.status = "Available" then (1 : Int) else 0) := by
  rw [cAvail_append, cAvail_middle]
  by_cases h : c.book = bid ∧ c.status = "Available" <;>
    simp only [h, if_true, if_false, reduceIte] <;> push_cast <;> ring

theorem cTotal_delete_delta (bid : Nat) (l1 l2 : List BookCopy) (c : BookCopy) :
    (cTotal bid (l1 ++ l2) : Int) =
      (cTotal bid (l1 ++ c :: l2) : Int) - (if c.book = bid then (1 : Int) else 0) := by
  rw [cTotal_append, cTotal_middle]
  by_cases h : c.book = bid <;>
    simp only [h, if_true, if_false, reduceIte] <;> push_cast <;> ring

/-- Books after `updateFirst` on a unique id differ from the old list by
per-book deltas that vanish away from the target id. -/
theorem books_delta_updateFirst {books : List Book} {bid : Nat} (f : Book → Book)
    (dA dT : Nat → Int)
    (huniq : books.Pairwise (fun a b => a.id ≠ b.id))
    (hzero : ∀ id', id' ≠ bid → dA id' = 0 ∧ dT id' = 0)
    (hf : ∀ b, (f b).id = b.id ∧ (f b).availableCopies = b.availableCopies + dA bid ∧
               (f b).totalCopies = b.totalCopies + dT bid) :
    ∀ b' ∈ updateFirst (fun b => b.id = bid) f books,
      ∃ b, b ∈ books ∧ b'.id = b.id ∧
        b'.availableCopies = b.availableCopies + dA b.id ∧
        b'.totalCopies = b.totalCopies + dT b.id := by
  cases hfind : books.find? (fun b => b.id = bid) with
  | none =>
    rw [updateFirst_of_none _ _ (fun x hx => by
      simpa using List.find?_eq_none.mp hfind x hx)]
    intro b' hb'
    have hne : b'.id ≠ bid := by
      simpa using List.find?_eq_none.mp hfind b' hb'
    exact ⟨b', hb', rfl,
      by rw [(hzero b'.id hne).1, add_zero], by rw [(hzero b'.id hne).2, add_zero]⟩
  | some b0 =>
    obtain ⟨m1, m2, hdec, hpre, hp⟩ := find?_decomp hfind
    have hb0 : b0.id = bid := by simpa using hp
    rw [hdec, updateFirst_at _ _ m2 b0 hpre hp]
    intro b' hb'
    rcases List.mem_append.mp hb' with h1 | h2
    · have hne : b'.id ≠ bid := by simpa using hpre b' h1
      exact ⟨b', List.mem_append_left _ h1, rfl,
        by rw [(hzero b'.id hne).1, add_zero], by rw [(hzero b'.id hne).2, add_zero]⟩
    · rcases List.mem_cons.mp h2 with rfl | h2
      · refine ⟨b0, List.mem_append_right _ (List.mem_cons_self _ _),
          (hf b0).1, ?_, ?_⟩
        · rw [(hf b0).2.1, hb0]
        · rw [(hf b0).2.2, hb0]
      · have hpw := (List.pairwise_append.mp (hdec ▸ huniq)).2.1
        have hne0 : b0.id ≠ b'.id := (List.pairwise_cons.mp hpw).1 b' h2
        have hne : b'.id ≠ bid := fun he => hne0 (by rw [hb0, he])
        exact ⟨b', List.mem_append_right _ (List.mem_cons_of_mem _ h2), rfl,
          by rw [(hzero b'.id hne).1, add_zero], by rw [(hzero b'.id hne).2, add_zero]⟩

theorem createBook_counterInv (title author isbn department : String) (quantity : Nat)
    (db : Db) (hwf : Wf db) (hinv : CounterInv db) :
    CounterInv (createBook title author isbn department quantity db).2 := by
  unfold createBook
  dsimp only
  split
  · exact hinv
  split
  · exact hinv
  unfold CounterInv
  dsimp only
  intro b hb
  have hlen : ((List.range quantity).map (fun i =>
      ({ id := db.nextCopyId + i, book := db.nextBookId,
         copyNumber := isbn ++ "-" ++ toString (i + 1),
         status := "Available" } : BookCopy))).length = quantity := by
    rw [List.length_map, List.length_range]
  rcases List.mem_append.mp hb with hold | hnew
  · have hne : ∀ c ∈ (List.range quantity).map (fun i =>
        ({ id := db.nextCopyId + i, book := db.nextBookId,
           copyNumber := isbn ++ "-" ++ toString (i + 1),
           status := "Available" } : BookCopy)), c.book ≠ b.id := by
      intro c hc
      obtain ⟨i, -, rfl⟩ := List.mem_map.mp hc
      exact ne_of_gt (hwf.2.1 b hold)
    constructor
    · rw [cAvail_append, cAvail_of_book_ne hne, Nat.add_zero]
      exact (hinv b hold).1
    · rw [cTotal_append, cTotal_of_book_ne hne, Nat.add_zero]
      exact (hinv b hold).2
  · rcases List.mem_cons.mp hnew with rfl | h
    · have hz1 : ∀ c ∈ db.copies, c.book ≠ db.nextBookId := by
        intro c hc
        exact ne_of_lt (hwf.2.2 c hc)
      constructor
      · show (quantity : Int) = _
        rw [cAvail_append, cAvail_of_book_ne hz1, Nat.zero_add,
          cAvail_all (by
            intro c hc
            obtain ⟨i, -, rfl⟩ := List.mem_map.mp hc
            exact ⟨rfl, rfl⟩), hlen]
      · show (quantity : Int) = _
        rw [cTotal_append, cTotal_of_book_ne hz1, Nat.zero_add,
          cTotal_all (by
            intro c hc
            obtain ⟨i, -, rfl⟩ := List.mem_map.mp hc
            exact rfl), hlen]
    · exact absurd h (List.not_mem_nil b)

theorem cAvail_mapgen_eq (bid q : Nat) (g : Nat → BookCopy)
    (hb : ∀ i, (g i).book = bid ∧ (g i).status = "Available") :
    cAvail bid ((List.range q).map g) = q := by
  rw [cAvail_all (by
    intro c hc
    obtain ⟨i, -, rfl⟩ := List.mem_map.mp hc
    exact hb i), List.length_map, List.length_range]

theorem cAvail_mapgen_ne (bid q : Nat) (g : Nat → BookCopy)
    (hb : ∀ i, (g i).book ≠ bid) :
    cAvail bid ((List.range q).map g) = 0 := by
  rw [cAvail_of_book_ne (by
    intro c hc
    obtain ⟨i, -, rfl⟩ := List.mem_map.mp hc
    exact hb i)]

theorem cTotal_mapgen_eq (bid q : Nat) (g : Nat → BookCopy)
    (hb : ∀ i, (g i).book = bid) :
    cTotal bid ((List.range q).map g) = q := by
  rw [cTotal_all (by
    intro c hc
    obtain ⟨i, -, rfl⟩ := List.mem_map.mp hc
    exact hb i), List.length_map, List.length_range]

theorem cTotal_mapgen_ne (bid q : Nat) (g : Nat → BookCopy)
    (hb : ∀ i, (g i).book ≠ bid) :
    cTotal bid ((List.range q).map g) = 0 := by
  rw [cTotal_of_book_ne (by
    intro c hc
    obtain ⟨i, -, rfl⟩ := List.mem_map.mp hc
    exact hb i)]

theorem addCopies_counterInv (bookId : Nat) (count : Nat) (db : Db)
    (hwf : Wf db) (hinv : CounterInv db) :
    CounterInv (addCopies bookId count db).2 := by
  unfold addCopies
  dsimp only
  cases hfind : db.books.find? (fun b => b.id = bookId) with
  | none => exact hinv
  | some book =>
  have hbid : book.id = bookId := by simpa using List.find?_some hfind
  unfold CounterInv
  dsimp only
  refine counterInv_step (fun id' => if id' = bookId then (count : Int) else 0)
    (fun id' => if id' = bookId then (count : Int) else 0) ?_ ?_ ?_ hinv
  · refine books_delta_updateFirst _
      (fun id' => if id' = bookId then (count : Int) else 0)
      (fun id' => if id' = bookId then (count : Int) else 0) hwf.1 ?_ ?_
    · intro id' h
      constructor <;> simp [h]
    · intro b
      refine ⟨rfl, ?_, ?_⟩ <;> simp
  · intro bid
    dsimp only
    have h2 : cAvail bid (List.map (fun (i : Nat) =>
        ({ id := db.nextCopyId + i, book := book.id,
           copyNumber := book.isbn ++ "-" ++ toString (book.totalCopies + 1 + Int.ofNat i),
           status := "Available" } : BookCopy)) (List.range count)) =
        if bid = book.id then count else 0 := by
      by_cases h : bid = book.id
      · subst h
        rw [if_pos rfl]
        exact cAvail_mapgen_eq _ _ _ (fun i => ⟨rfl, rfl⟩)
      · rw [if_neg h]
        exact cAvail_mapgen_ne _ _ _ (fun i he => h he.symm)
    rw [cAvail_append, h2]
    by_cases h : bid = book.id
    · rw [if_pos h, if_pos (h.trans hbid)]
      push_cast
      ring
    · rw [if_neg h, if_neg (fun hc => h (hc.trans hbid.symm))]
      push_cast
      ring
  · intro bid
    dsimp only
    have h2 : cTotal bid (List.map (fun (i : Nat) =>
        ({ id := db.nextCopyId + i, book := book.id,
           copyNumber := book.isbn ++ "-" ++ toString (book.totalCopies + 1 + Int.ofNat i),
           status := "Available" } : BookCopy)) (List.range count)) =
        if bid = book.id then count else 0 := by
      by_cases h : bid = book.id
      · subst h
        rw [if_pos rfl]
        exact cTotal_mapgen_eq _ _ _ (fun i => rfl)
      · rw [if_neg h]
        exact cTotal_mapgen_ne _ _ _ (fun i he => h he.symm)
    rw [cTotal_append, h2]
    by_cases h : bid = book.id
    · rw [if_pos h, if_pos (h.trans hbid)]
      push_cast
      ring
    · rw [if_neg h, if_neg (fun hc => h (hc.trans hbid.symm))]
      push_cast
      ring

theorem books_delta_id {books : List Book} (dA dT : Nat → Int)
    (h : ∀ b ∈ books, dA b.id = 0 ∧ dT b.id = 0) :
    ∀ b' ∈ books, ∃ b, b ∈ books ∧ b'.id = b.id ∧
      b'.availableCopies = b.availableCopies + dA b.id ∧
      b'.totalCopies = b.totalCopies + dT b.id :=
  fun b' hb' => ⟨b', hb', rfl, by rw [(h b' hb').1, add_zero],
    by rw [(h b' hb').2, add_zero]⟩

theorem deleteCopy_counterInv (did : Nat) (db : Db) (hwf : Wf db)
    (hinv : CounterInv db) : CounterInv (deleteCopy did db).2 := by
  unfold deleteCopy
  dsimp only
  cases hfind : db.copies.find? (fun c => c.id = did) with
  | none => exact hinv
  | some copy =>
  dsimp only
  obtain ⟨l1, l2, hdec, hpre, hp⟩ := find?_decomp hfind
  have hdel : deleteFirst (fun c => c.id = did) db.copies = l1 ++ l2 := by
    rw [hdec]
    exact deleteFirst_at _ l2 copy hpre hp
  have hcA : ∀ bid, (cAvail bid (deleteFirst (fun c => c.id = did) db.copies) : Int) =
      (cAvail bid db.copies : Int) +
      (if bid = copy.book then
        (if copy.status = "Available" then (-1 : Int) else 0) else 0) := by
    intro bid
    rw [hdel, hdec, cAvail_delete_delta bid l1 l2 copy]
    by_cases hb : bid = copy.book
    · subst hb
      by_cases hs : copy.status = "Available"
      · rw [if_pos ⟨rfl, hs⟩, if_pos rfl, if_pos hs]
        ring
      · rw [if_neg (fun hc => hs hc.2), if_pos rfl, if_neg hs]
        ring
    · rw [if_neg (fun hc => hb hc.1.symm), if_neg hb]
      ring
  have hcT : ∀ bid, (cTotal bid (deleteFirst (fun c => c.id = did) db.copies) : Int) =
      (cTotal bid db.copies : Int) + (if bid = copy.book then (-1 : Int) else 0) := by
    intro bid
    rw [hdel, hdec, cTotal_delete_delta bid l1 l2 copy]
    by_cases hb : bid = copy.book
    · subst hb
      rw [if_pos rfl, if_pos rfl]
      ring
    · rw [if_neg (fun hc => hb hc.symm), if_neg hb]
      ring
  cases hfb : db.books.find? (fun b => b.id = copy.book) with
  | some b0 =>
    rw [if_pos (by rw [Option.isSome_some])]
    unfold CounterInv
    dsimp only
    refine counterInv_step
      (fun bid => if bid = copy.book then
        (if copy.status = "Available" then (-1 : Int) else 0) else 0)
      (fun bid => if bid = copy.book then (-1 : Int) else 0) ?_ hcA hcT hinv
    refine books_delta_updateFirst _
      (fun bid => if bid = copy.book then
        (if copy.status = "Available" then (-1 : Int) else 0) else 0)
      (fun bid => if bid = copy.book then (-1 : Int) else 0) hwf.1 ?_ ?_
    · intro id' h
      constructor <;> simp [h]
    · intro b
      refine ⟨rfl, ?_, ?_⟩
      · by_cases hs : copy.status = "Available" <;> simp [hs, sub_eq_add_neg]
      · simp [sub_eq_add_neg]
  | none =>
    rw [if_neg (by rw [Option.isSome_none]; exact Bool.false_ne_true)]
    unfold CounterInv
    dsimp only
    refine counterInv_step
      (fun bid => if bid = copy.book then
        (if copy.status = "Available" then (-1 : Int) else 0) else 0)
      (fun bid => if bid = copy.book then (-1 : Int) else 0) ?_ hcA hcT hinv
    refine books_delta_id
      (fun bid => if bid = copy.book then
        (if copy.status = "Available" then (-1 : Int) else 0) else 0)
      (fun bid => if bid = copy.book then (-1 : Int) else 0) ?_
    intro b hb
    have hne : b.id ≠ copy.book := by
      simpa using List.find?_eq_none.mp hfb b hb
    constructor <;> simp [hne]

theorem cTotal_replace_same (bid : Nat) (l1 l2 : List BookCopy) (c c' : BookCopy)
    (h : c'.book = c.book) :
    (cTotal bid (l1 ++ c' :: l2) : Int) = (cTotal bid (l1 ++ c :: l2) : Int) := by
  rw [cTotal_replace_delta bid l1 l2 c c', h]
  ring

theorem cAvail_replace_same (bid : Nat) (l1 l2 : List BookCopy) (c c' : BookCopy)
    (hbk : c'.book = c.book)
    (hst : (c'.status = "Available") ↔ (c.status = "Available")) :
    (cAvail bid (l1 ++ c' :: l2) : Int) = (cAvail bid (l1 ++ c :: l2) : Int) := by
  rw [cAvail_replace_delta bid l1 l2 c c']
  by_cases hc : c.book = bid ∧ c.status = "Available"
  · rw [if_pos ⟨hbk.trans hc.1, hst.mpr hc.2⟩, if_pos hc]
    ring
  · rw [if_neg (fun hx => hc ⟨hbk.symm.trans hx.1, hst.mp hx.2⟩), if_neg hc]
    ring

theorem cAvail_replace_to_unavail (bid : Nat) (l1 l2 : List BookCopy) (c c' : BookCopy)
    (hbk : c'.book = c.book) (ha : c.status = "Available")
    (hna : ¬ c'.status = "Available") :
    (cAvail bid (l1 ++ c' :: l2) : Int) =
      (cAvail bid (l1 ++ c :: l2) : Int) + (if bid = c.book then (-1 : Int) else 0) := by
  rw [cAvail_replace_delta bid l1 l2 c c', if_neg (fun hx => hna hx.2)]
  by_cases hb : bid = c.book
  · rw [if_pos ⟨hb.symm, ha⟩, if_pos hb]
    ring
  · rw [if_neg (fun hx => hb hx.1.symm), if_neg hb]
    ring

theorem cAvail_replace_to_avail (bid : Nat) (l1 l2 : List BookCopy) (c c' : BookCopy)
    (hbk : c'.book = c.book) (hna : ¬ c.status = "Available")
    (ha : c'.status = "Available") :
    (cAvail bid (l1 ++ c' :: l2) : Int) =
      (cAvail bid (l1 ++ c :: l2) : Int) + (if bid = c.book then (1 : Int) else 0) := by
  rw [cAvail_replace_delta bid l1 l2 c c']
  by_cases hb : bid = c.book
  · rw [if_pos ⟨hbk.trans hb.symm, ha⟩, if_neg (fun hx => hna hx.2), if_pos hb]
    ring
  · rw [if_neg (fun hx => hb (hbk.symm.trans hx.1).symm),
        if_neg (fun hx => hb hx.1.symm), if_neg hb]
    ring

theorem updateCopyStatus_counterInv (did : Nat) (status : String) (db : Db)
    (hwf : Wf db) (hinv : CounterInv db) :
    CounterInv (updateCopyStatus did status db).2 := by
  unfold updateCopyStatus
  dsimp only
  cases hfind : db.copies.find? (fun c => c.id = did) with
  | none => exact hinv
  | some copy =>
  dsimp only
  obtain ⟨l1, l2, hdec, hpre, hp⟩ := find?_decomp hfind
  have hupd : updateFirst (fun c => c.id = did) (fun c => { c with status := status })
      db.copies = l1 ++ { copy with status := status } :: l2 := by
    rw [hdec]
    exact updateFirst_at _ _ l2 copy hpre hp
  cases hfb : db.books.find? (fun b => b.id = copy.book) with
  | none =>
    rw [if_pos (by rw [Option.isNone_none])]
    split
    · exact hinv
    split
    · exact hinv
    split
    · rename_i hc1 hc2 hvs
      have hiff : ({ copy with status := status } : BookCopy).status = "Available" ↔
          copy.status = "Available" := by
        show (status = "Available") ↔ (copy.status = "Available")
        constructor
        · intro hs
          by_contra hca
          exact hc2 (by simp [hs, hca])
        · intro hca
          by_contra hs
          exact hc1 (by simp [hca, hs])
      unfold CounterInv
      dsimp only
      refine counterInv_step (fun _ => (0 : Int)) (fun _ => (0 : Int)) ?_ ?_ ?_ hinv
      · exact books_delta_id (fun _ => 0) (fun _ => 0) (fun b _ => ⟨rfl, rfl⟩)
      · intro bid
        rw [hupd, hdec, cAvail_replace_same bid l1 l2 copy { copy with status := status } rfl hiff]
        simp
      · intro bid
        rw [hupd, hdec, cTotal_replace_same bid l1 l2 copy { copy with status := status } rfl]
        simp
    · exact hinv
  | some b0 =>
    rw [if_neg (by rw [Option.isNone_some]; exact Bool.false_ne_true)]
    split
    · by_cases ha : copy.status = "Available" <;> by_cases hs : status = "Available"
      · -- Available → Available: no counter branch
        have hb1 : (copy.status = "Available" && !(status = "Available")) = false := by
          simp [hs]
        have hb2 : (!(copy.status = "Available") && status = "Available") = false := by
          simp [ha]
        rw [hb1, hb2]
        simp only [Bool.false_eq_true, if_false]
        unfold CounterInv
        dsimp only
        refine counterInv_step (fun _ => (0 : Int)) (fun _ => (0 : Int)) ?_ ?_ ?_ hinv
        · exact books_delta_id (fun _ => 0) (fun _ => 0) (fun b _ => ⟨rfl, rfl⟩)
        · intro bid
          rw [hupd, hdec, cAvail_replace_same bid l1 l2 copy { copy with status := status } rfl (by simp [ha, hs])]
          simp
        · intro bid
          rw [hupd, hdec, cTotal_replace_same bid l1 l2 copy { copy with status := status } rfl]
          simp
      · -- Available → non-Available: availableCopies decremented
        have hb1 : (copy.status = "Available" && !(status = "Available")) = true := by
          simp [ha, hs]
        rw [hb1]
        simp only [if_true]
        unfold CounterInv
        dsimp only
        refine counterInv_step
          (fun bid => if bid = copy.book then (-1 : Int) else 0)
          (fun _ => (0 : Int)) ?_ ?_ ?_ hinv
        · refine books_delta_updateFirst _
            (fun bid => if bid = copy.book then (-1 : Int) else 0)
            (fun _ => (0 : Int)) hwf.1 ?_ ?_
          · intro id' h
            constructor <;> simp [h]
          · intro b
            refine ⟨rfl, ?_, ?_⟩ <;> simp [sub_eq_add_neg]
        · intro bid
          rw [hupd, hdec, cAvail_replace_to_unavail bid l1 l2 copy { copy with status := status } rfl ha hs]
        · intro bid
          rw [hupd, hdec, cTotal_replace_same bid l1 l2 copy { copy with status := status } rfl]
          simp
      · -- non-Available → Available: availableCopies incremented
        have hb1 : (copy.status = "Available" && !(status = "Available")) = false := by
          simp [ha]
        have hb2 : (!(copy.status = "Available") && status = "Available") = true := by
          simp [ha, hs]
        rw [hb1, hb2]
        simp only [Bool.false_eq_true, if_false, if_true]
        unfold CounterInv
        dsimp only
        refine counterInv_step
          (fun bid => if bid = copy.book then (1 : Int) else 0)
          (fun _ => (0 : Int)) ?_ ?_ ?_ hinv
        · refine books_delta_updateFirst _
            (fun bid => if bid = copy.book then (1 : Int) else 0)
            (fun _ => (0 : Int)) hwf.1 ?_ ?_
          · intro id' h
            constructor <;> simp [h]
          · intro b
            refine ⟨rfl, ?_, ?_⟩ <;> simp
        · intro bid
          rw [hupd, hdec, cAvail_replace_to_avail bid l1 l2 copy { copy with status := status } rfl ha hs]
        · intro bid
          rw [hupd, hdec, cTotal_replace_same bid l1 l2 copy { copy with status := status } rfl]
          simp
      · -- non-Available → non-Available: no counter branch
        have hb1 : (copy.status = "Available" && !(status = "Available")) = false := by
          simp [ha]
        have hb2 : (!(copy.status = "Available") && status = "Available") = false := by
          simp [hs]
        rw [hb1, hb2]
        simp only [Bool.false_eq_true, if_false]
        unfold CounterInv
        dsimp only
        refine counterInv_step (fun _ => (0 : Int)) (fun _ => (0 : Int)) ?_ ?_ ?_ hinv
        · exact books_delta_id (fun _ => 0) (fun _ => 0) (fun b _ => ⟨rfl, rfl⟩)
        · intro bid
          rw [hupd, hdec, cAvail_replace_same bid l1 l2 copy { copy with status := status } rfl (by simp [ha, hs])]
          simp
        · intro bid
          rw [hupd, hdec, cTotal_replace_same bid l1 l2 copy { copy with status := status } rfl]
          simp
    · exact hinv

theorem issueBook_counterInv (today : Int) (reqUser : Option Nat) (studentId : Nat)
    (isbn : String) (copyId : Option String) (db : Db) (cfg : SystemConfig)
    (hcfg : db.config = some cfg) (hwf : Wf db) (hinv : CounterInv db)
    (h : (issueBook none today reqUser studentId isbn copyId db).1.code = 201) :
    CounterInv (issueBook none today reqUser studentId isbn copyId db).2 := by
  obtain ⟨l1, c0, l2, hdec, hstat, hcop, hbooks, -⟩ :=
    issueBook_success today reqUser studentId isbn copyId db cfg hcfg h
  unfold CounterInv
  rw [hbooks, hcop]
  refine counterInv_step
    (fun bid => if bid = c0.book then (-1 : Int) else 0) (fun _ => (0 : Int))
    ?_ ?_ ?_ hinv
  · refine books_delta_updateFirst _
      (fun bid => if bid = c0.book then (-1 : Int) else 0)
      (fun _ => (0 : Int)) hwf.1 ?_ ?_
    · intro id' hne
      constructor <;> simp [hne]
    · intro b
      refine ⟨rfl, ?_, ?_⟩ <;> simp [sub_eq_add_neg]
  · intro bid
    rw [hdec, cAvail_replace_to_unavail bid l1 l2 c0 { c0 with status := "Issued" }
      rfl hstat (by simp)]
  · intro bid
    rw [hdec, cTotal_replace_same bid l1 l2 c0 { c0 with status := "Issued" } rfl]
    simp

theorem returnBook_counterInv (today : Int) (reqUser : Option Nat) (cid : String)
    (db : Db) (cfg : SystemConfig) (hcfg : db.config = some cfg) (hwf : Wf db)
    (hinv : CounterInv db)
    (hnav : ∀ x, db.copies.find? (fun c => c.copyNumber = cid) = some x →
      ¬ x.status = "Available")
    (h : (returnBook none today reqUser cid db).1.code = 200) :
    CounterInv (returnBook none today reqUser cid db).2 := by
  obtain ⟨l1, c0, l2, hdec, hcid, hpre, hcop, hbooks⟩ :=
    returnBook_success today reqUser cid db cfg hcfg h
  have hfind : db.copies.find? (fun c => c.copyNumber = cid) = some c0 := by
    rw [hdec]
    exact find?_at _ l2 c0 (fun x hx => by simpa using hpre x hx)
      (by simpa using hcid)
  have hna : ¬ c0.status = "Available" := hnav c0 hfind
  unfold CounterInv
  rw [hbooks, hcop]
  refine counterInv_step
    (fun bid => if bid = c0.book then (1 : Int) else 0) (fun _ => (0 : Int))
    ?_ ?_ ?_ hinv
  · refine books_delta_updateFirst _
      (fun bid => if bid = c0.book then (1 : Int) else 0)
      (fun _ => (0 : Int)) hwf.1 ?_ ?_
    · intro id' hne
      constructor <;> simp [hne]
    · intro b
      refine ⟨rfl, ?_, ?_⟩ <;> simp
  · intro bid
    rw [hdec, cAvail_replace_to_avail bid l1 l2 c0 { c0 with status := "Available" }
      rfl hna rfl]
  · intro bid
    rw [hdec, cTotal_replace_same bid l1 l2 c0 { c0 with status := "Available" } rfl]
    simp

/-- A store satisfying the counter invariant in which copy `isbn-1` is
`Available` while an `Issued` transaction for it is still open (reachable:
`updateCopyStatus` can set an issued copy back to `Available`). -/
def dbBad : Db :=
  { config := some cfgEx,
    users := [userEx],
    books := [{ id := 0, title := "T", author := "A", isbn := "isbn",
                department := "CSE", totalCopies := 1, availableCopies := 1 }],
    copies := [{ id := 0, book := 0, copyNumber := "isbn-1", status := "Available" }],
    txns := [txnEx],
    deptCodes := ["CSE"], audits := [], nextBookId := 1, nextCopyId := 1 }

/-- C9 counterexample: on `dbBad` the counter invariant (and store
well-formedness) holds before, `returnBook` succeeds with 200, and the
invariant is broken afterwards — `availableCopies` is incremented to 2
although only one `Available` copy exists. -/
theorem counter_invariant_counterexample :
    Wf dbBad ∧ CounterInv dbBad ∧
    (returnBook none 13 none "isbn-1" dbBad).1.code = 200 ∧
    ¬ CounterInv (returnBook none 13 none "isbn-1" dbBad).2 :=
  ⟨by decide, by decide, by decide, by decide⟩

/-- C9 (amended): assuming the counter invariant (and unique, fresh book
ids) before, it holds after `createBook`, `addCopies`, `deleteCopy`,
`updateCopyStatus`, a successful `issueBook`, and a successful `returnBook`
provided the returned copy is not already marked `Available` when the return
happens. -/
theorem counter_invariant_preserved (db : Db) (today today2 : Int)
    (reqUser reqUser2 : Option Nat) (studentId : Nat)
    (title author isbn department isbn2 status cid : String)
    (quantity count bookId did did2 : Nat) (copyId : Option String)
    (cfg : SystemConfig)
    (hcfg : db.config = some cfg) (hwf : Wf db) (hinv : CounterInv db) :
    CounterInv (createBook title author isbn department quantity db).2 ∧
    CounterInv (addCopies bookId count db).2 ∧
    CounterInv (deleteCopy did db).2 ∧
    CounterInv (updateCopyStatus did2 status db).2 ∧
    ((issueBook none today reqUser studentId isbn2 copyId db).1.code = 201 →
      CounterInv (issueBook none today reqUser studentId isbn2 copyId db).2) ∧
    ((∀ x, db.copies.find? (fun c => c.copyNumber = cid) = some x →
        ¬ x.status = "Available") →
      (returnBook none today2 reqUser2 cid db).1.code = 200 →
      CounterInv (returnBook none today2 reqUser2 cid db).2) :=
  ⟨createBook_counterInv title author isbn department quantity db hwf hinv,
   addCopies_counterInv bookId count db hwf hinv,
   deleteCopy_counterInv did db hwf hinv,
   updateCopyStatus_counterInv did2 status db hwf hinv,
   fun h => issueBook_counterInv today reqUser studentId isbn2 copyId db cfg hcfg
     hwf hinv h,
   fun hnav h => returnBook_counterInv today2 reqUser2 cid db cfg hcfg hwf hinv
     hnav h⟩

theorem counter_invariant_preserved_witness :
    (dbEx.config = some cfgEx ∧ Wf dbEx ∧ CounterInv dbEx) ∧
    (CounterInv (createBook "T2" "A2" "isbn2" "CSE" 2 dbEx).2 ∧
     CounterInv (addCopies 0 1 dbEx).2 ∧
     CounterInv (deleteCopy 0 dbEx).2 ∧
     CounterInv (updateCopyStatus 0 "Lost" dbEx).2 ∧
     ((issueBook none 0 none 1 "isbn" none dbEx).1.code = 201 →
       CounterInv (issueBook none 0 none 1 "isbn" none dbEx).2) ∧
     ((∀ x, dbEx.copies.find? (fun c => c.copyNumber = "isbn-1") = some x →
         ¬ x.status = "Available") →
       (returnBook none 13 none "isbn-1" dbEx).1.code = 200 →
       CounterInv (returnBook none 13 none "isbn-1" dbEx).2)) :=
  ⟨⟨by decide, by decide, by decide⟩,
   counter_invariant_preserved dbEx 0 13 none none 1 "T2" "A2" "isbn2" "CSE" "isbn"
     "Lost" "isbn-1" 2 1 0 0 0 none cfgEx (by decide) (by decide) (by decide)⟩
